import Mathlib

/-!
# Wwise file cache: a shallow embedding of `WwiseFileCache.cpp`

The per-file cache handle (`FWwiseFileCacheHandle`) is callback driven.  The embedding is
explicit state passing over a `World`:

* the handle's member variables (`FWwiseFileCacheHandle`),
* the byte buffers reachable through raw pointers (`mem`),
* the closures that are alive outside the handle: tasks handed to the manager's thread pool
  by `CallDone` (`pool`) and read callbacks held by the platform for requests in flight
  (`reads`),
* the chronological list of observable effects (`trace`),
* whether execution was halted by a failed `check` or by an invalid dereference (`fault`).

Everything the platform or the process decides (what `FWwiseFileCache::Get()`,
`OpenAsyncRead`, `SizeRequest`, `ReadRequest` and `new` return) is an input, gathered in `Env`.
What the platform does later (completing a read request, running a thread-pool task) is a
function of its own on the world: `ReadRequestDone`, `runPoolTask`. A life of a handle is a
sequence of such calls and completions (`Event`, `runEvents`).

The manager's execution queue (`FWwiseExecutionQueue`) is only declared in the sources; its
state machine is modelled from the specification, apart from the handle.

Conventions:

* `check(cond)` is read as in a build with checks enabled: a false condition stops execution.
* A `TUniqueFunction` that was moved into another closure is unbound afterwards; calling an
  unbound one stops execution.
* `int64` arithmetic wraps around (`wrapInt64`); `TAtomic<int32>` likewise (`wrapInt32`).
* Log lines and statistics macros have no effect on control flow and are left out.
-/

namespace Wwise

/-- The platform I/O priorities the file cache uses (`EAsyncIOPriorityAndFlags`). -/
inductive EAsyncIOPriorityAndFlags
  | AIOP_MIN
  | AIOP_Low
  | AIOP_BelowNormal
  | AIOP_Normal
  | AIOP_High
  | AIOP_MAX
  deriving DecidableEq, Repr

/-- Address of a byte buffer (`uint8*`). -/
abbrev Ptr := Nat

/-- Identity of a native request object (`IAsyncReadRequest*`, non-null). -/
abbrev RequestId := Nat

/-- Identity of a native file handle (`IAsyncReadFileHandle*`, non-null). -/
abbrev FileHandleId := Nat

/-- The `FWwiseFileOperationDone` closures that reach `ReadData`: a closure supplied by a
caller (opaque, identified by a number), or the lambda `ProcessPreload` builds,
`[this, TempPreloadData](bool bResult) { OnPreloadRequestDone(bResult, TempPreloadData); }`. -/
inductive FWwiseFileOperationDone
  | user (id : Nat)
  | preload (TempPreloadData : Ptr)
  deriving DecidableEq, Repr

/-- One statement of a closure handed to the manager's execution queue. A request or file
handle pointer captured by the closure may be null (`none`). -/
inductive QueueOp
  | WaitCompletion (Request : Option RequestId)
  | DeleteRequest (Request : Option RequestId)
  | DeleteFileHandle (FileHandle : Option FileHandleId)
  deriving DecidableEq, Repr

/-- Observable effects, in the order the code performs them. -/
inductive Effect
  /-- The call `GetPlatformFile().OpenAsyncRead(*Pathname)`. -/
  | OpenAsyncRead
  /-- The call `FileHandle->SizeRequest(&SizeCallbackFunction)`. -/
  | SizeRequest (FileHandle : FileHandleId)
  /-- The call `FileHandle->ReadRequest(Offset, BytesToRead, Priority, &ReadCallbackFunction,
  OutBuffer)`. -/
  | ReadRequest (FileHandle : FileHandleId) (Offset BytesToRead : Int)
      (Priority : EAsyncIOPriorityAndFlags) (OutBuffer : Ptr)
  /-- The call `FMemory::Memcpy(Dest, Src, Count)`. -/
  | Memcpy (Dest Src : Ptr) (Count : Int)
  /-- The allocation `new uint8[Size]` and the pointer it gave. -/
  | NewArray (Size : Int) (Result : Option Ptr)
  /-- The statement `delete[]` on a byte buffer. -/
  | DeleteArray (Buffer : Option Ptr)
  /-- A synchronous `delete FileHandle`. -/
  | DeleteFileHandle (FileHandle : Option FileHandleId)
  /-- A caller-supplied completion closure runs with this argument. -/
  | Call (OnDone : Nat) (bResult : Bool)
  /-- An unbound (moved-from or reset) `TUniqueFunction` is invoked. -/
  | CallUnbound (bResult : Bool)
  /-- The call `AsyncPool(*ThreadPool, [bResult, OnDone] { OnDone(bResult); })`. -/
  | AsyncPool (OnDone : Option FWwiseFileOperationDone) (bResult : Bool)
  /-- The call `FileCache->ExecutionQueue->Async(task)`. -/
  | Async (Task : List QueueOp)
  /-- The call `FileCache->ExecutionQueue->AsyncWait(task)`. -/
  | AsyncWait (Task : List QueueOp)
  /-- A `check(...)` whose condition is false. -/
  | CheckFailed
  /-- The expression `FileCache->ExecutionQueue` evaluated with `FileCache == nullptr`. -/
  | NullFileCacheDeref
  deriving DecidableEq, Repr

/-- The manager (`FWwiseFileCache`) as the handle sees it: `FileCacheThreadPool` may be null,
`ExecutionQueue` is used without a test. -/
structure FWwiseFileCache where
  FileCacheThreadPool : Bool
  deriving DecidableEq, Repr

/-- Member variables of `FWwiseFileCacheHandle`. `Pathname` only feeds log lines and is left
out. `InitializationDone` is the closure given to `Open` (a caller's), `none` when unbound. -/
structure FWwiseFileCacheHandle where
  FileHandle : Option FileHandleId
  FileSize : Int
  PreloadSize : Int
  PreloadPriority : EAsyncIOPriorityAndFlags
  PreloadData : Option Ptr
  Granularity : Int
  InitializationDone : Option Nat
  InitializationStat : Bool
  ReadDataInProcess : Int
  deriving DecidableEq, Repr

/-- What `ReadCallbackFunction` captures, kept by the platform until the request completes. -/
structure PendingRead where
  Request : RequestId
  OnDone : FWwiseFileOperationDone
  BytesToRead : Int
  OutBuffer : Ptr
  deriving DecidableEq, Repr

/-- The handle together with everything around it that its code touches. -/
structure World where
  handle : FWwiseFileCacheHandle
  mem : Ptr → List Nat
  pool : List (Option FWwiseFileOperationDone × Bool)
  reads : List PendingRead
  trace : List Effect
  fault : Bool

/-- What the surroundings answer during one call into the handle. -/
structure Env where
  /-- Result of `FWwiseFileCache::Get()`. -/
  FileCache : Option FWwiseFileCache
  /-- Result of `OpenAsyncRead`. -/
  OpenAsyncRead : Option FileHandleId
  /-- Result of `FileHandle->SizeRequest`. -/
  SizeRequest : Option RequestId
  /-- Result of `new uint8[PreloadSize]`. -/
  NewArray : Option Ptr
  /-- Result of `FileHandle->ReadRequest`. -/
  ReadRequest : Option RequestId
  deriving DecidableEq, Repr

/-- Two's complement reduction of an integer to `int64`. -/
def wrapInt64 (x : Int) : Int := (x + 2 ^ 63) % 2 ^ 64 - 2 ^ 63

/-- Two's complement reduction of an integer to `int32` (`TAtomic<int32>`). -/
def wrapInt32 (x : Int) : Int := (x + 2 ^ 31) % 2 ^ 32 - 2 ^ 31

/-- Appends an effect to the trace. -/
def emit (w : World) (e : Effect) : World := { w with trace := w.trace ++ [e] }

/-- Execution stops: a failed `check`, an unbound function call, a null dereference. -/
def halt (w : World) (e : Effect) : World := { w with trace := w.trace ++ [e], fault := true }

/-- Sequencing: the rest of a function body runs only if execution has not stopped. -/
def andThen (w : World) (k : World → World) : World := if w.fault then w else k w

/-- The constructor: `FileHandle`, `PreloadData` and `InitializationStat` null, `FileSize` 0,
`ReadDataInProcess` 0. -/
def FWwiseFileCacheHandle.new (InPreloadSize : Int) (InPreloadPriority : EAsyncIOPriorityAndFlags)
    (InGranularity : Int) : FWwiseFileCacheHandle :=
  { FileHandle := none
    FileSize := 0
    PreloadSize := InPreloadSize
    PreloadPriority := InPreloadPriority
    PreloadData := none
    Granularity := InGranularity
    InitializationDone := none
    InitializationStat := false
    ReadDataInProcess := 0 }

/-- A freshly constructed handle in a quiet process; `mem` gives the content of the buffers
callers own. -/
def World.init (InPreloadSize : Int) (InPreloadPriority : EAsyncIOPriorityAndFlags)
    (InGranularity : Int) (mem : Ptr → List Nat) : World :=
  { handle := FWwiseFileCacheHandle.new InPreloadSize InPreloadPriority InGranularity
    mem := mem
    pool := []
    reads := []
    trace := []
    fault := false }

/-- The method `FWwiseFileCacheHandle::OnPreloadRequestDone`. -/
def OnPreloadRequestDone (w : World) (bResult : Bool) (TempPreloadData : Ptr) : World :=
  let w1 :=
    if !bResult then
      emit w (.DeleteArray (some TempPreloadData))
    else
      { w with handle := { w.handle with PreloadData := some TempPreloadData } }
  let w2 :=
    match w1.handle.InitializationDone with
    | some id => emit w1 (.Call id bResult)
    | none => halt w1 (.CallUnbound bResult)
  andThen w2 fun w3 =>
    { w3 with handle := { w3.handle with InitializationDone := none, InitializationStat := false } }

/-- Invocation `OnDone(bResult)` of a `FWwiseFileOperationDone`. -/
def invoke (w : World) (OnDone : Option FWwiseFileOperationDone) (bResult : Bool) : World :=
  match OnDone with
  | none => halt w (.CallUnbound bResult)
  | some (.user id) => emit w (.Call id bResult)
  | some (.preload TempPreloadData) => OnPreloadRequestDone w bResult TempPreloadData

/-- Whether `CallDone` moves its argument into a thread-pool task (manager and pool both
there) instead of calling it in place. -/
def CallDoneMoves (FileCache : Option FWwiseFileCache) : Bool :=
  match FileCache with
  | some fc => fc.FileCacheThreadPool
  | none => false

/-- The method `FWwiseFileCacheHandle::CallDone`. -/
def CallDone (FileCache : Option FWwiseFileCache) (w : World) (bResult : Bool)
    (OnDone : Option FWwiseFileOperationDone) : World :=
  if CallDoneMoves FileCache then
    { w with pool := w.pool ++ [(OnDone, bResult)], trace := w.trace ++ [.AsyncPool OnDone bResult] }
  else
    invoke w OnDone bResult

/-- The statement `CallDone(bResult, MoveTemp(InitializationDone))`: the member is left
unbound exactly when `CallDone` moved it into a pool task. -/
def CallDoneInitializationDone (FileCache : Option FWwiseFileCache) (w : World)
    (bResult : Bool) : World :=
  let w1 := CallDone FileCache w bResult (w.handle.InitializationDone.map .user)
  if CallDoneMoves FileCache then
    { w1 with handle := { w1.handle with InitializationDone := none } }
  else
    w1

/-- The statement pair `delete InitializationStat; InitializationStat = nullptr;`. -/
def deleteInitializationStat (w : World) : World :=
  { w with handle := { w.handle with InitializationStat := false } }

/-- The method `FWwiseFileCacheHandle::OnReadDataDone(bool bResult, OnDone)`. -/
def OnReadDataDone (FileCache : Option FWwiseFileCache) (w : World) (bResult : Bool)
    (OnDone : FWwiseFileOperationDone) : World :=
  let n := wrapInt32 (w.handle.ReadDataInProcess - 1)
  let w1 := { w with handle := { w.handle with ReadDataInProcess := n } }
  CallDone FileCache w1 bResult (some OnDone)

/-- The method `FWwiseFileCacheHandle::OnReadDataDone(bool bWasCancelled, IAsyncReadRequest*
Request, OnDone)`.
`GetReadResults` is what `Request->GetReadResults()` answers if it is asked. -/
def OnReadDataDoneRequest (FileCache : Option FWwiseFileCache) (w : World) (bWasCancelled : Bool)
    (Request : Option RequestId) (GetReadResults : Bool) (OnDone : FWwiseFileOperationDone) :
    World :=
  OnReadDataDone FileCache w (!bWasCancelled && Request.isSome && GetReadResults) OnDone

/-- The lambda `ReadCallbackFunction` of `ReadData`, with its captures `OnDone` and
`BytesToRead` (the latter only feeds a statistic). -/
def ReadCallbackFunction (FileCache : Option FWwiseFileCache) (w : World)
    (OnDone : FWwiseFileOperationDone) (bWasCancelled : Bool) (Request : Option RequestId)
    (GetReadResults : Bool) : World :=
  let w1 := OnReadDataDoneRequest FileCache w bWasCancelled Request GetReadResults OnDone
  andThen w1 fun w2 =>
    match FileCache with
    | some _ => emit w2 (.Async [.WaitCompletion Request, .DeleteRequest Request])
    | none => w2

/-- The effect of `FMemory::Memcpy(Dest, Src, Count)` on the buffer contents. -/
def Memcpy (mem : Ptr → List Nat) (Dest Src : Ptr) (Count : Int) : Ptr → List Nat :=
  Function.update mem Dest ((mem Src).take Count.toNat ++ (mem Dest).drop Count.toNat)

/-- The method `FWwiseFileCacheHandle::ReadData`. `issue` is the tail of the body, from the
declaration of `ReadCallbackFunction` on, reached whenever the preload buffer is not used. -/
def ReadData (env : Env) (w : World) (OutBuffer : Ptr) (Offset BytesToRead : Int)
    (Priority : EAsyncIOPriorityAndFlags) (OnDone : FWwiseFileOperationDone) : World :=
  let n := wrapInt32 (w.handle.ReadDataInProcess + 1)
  let w1 := { w with handle := { w.handle with ReadDataInProcess := n } }
  match w1.handle.FileHandle with
  | none => OnReadDataDone env.FileCache w1 false OnDone
  | some fh =>
    let issue : World :=
      if BytesToRead > 0 then
        let w2 := emit w1 (.ReadRequest fh Offset BytesToRead Priority OutBuffer)
        match env.ReadRequest with
        | some Request =>
          { w2 with reads := w2.reads ++ [⟨Request, OnDone, BytesToRead, OutBuffer⟩] }
        | none => ReadCallbackFunction env.FileCache w2 OnDone true none false
      else
        halt w1 .CheckFailed
    match w1.handle.PreloadData with
    | some PreloadData =>
      if Offset = 0 then
        if BytesToRead ≠ w1.handle.PreloadSize then
          issue
        else
          let w2 := { w1 with
            mem := Memcpy w1.mem OutBuffer PreloadData w1.handle.PreloadSize,
            trace := w1.trace ++ [.Memcpy OutBuffer PreloadData w1.handle.PreloadSize] }
          OnReadDataDone env.FileCache w2 true OnDone
      else
        issue
    | none => issue

/-- In `FWwiseFileCacheHandle::ProcessPreload`: the value `PreloadSize` is updated to, for
granularity and file size. -/
def effectivePreloadSize (PreloadSize Granularity FileSize : Int) : Int :=
  let PreloadSize1 :=
    if Granularity > 1 then
      let PreloadChunks := PreloadSize.tdiv Granularity
      let PreloadChunks1 :=
        if PreloadSize.tmod Granularity > 0 then wrapInt64 (PreloadChunks + 1) else PreloadChunks
      wrapInt64 (PreloadChunks1 * Granularity)
    else
      PreloadSize
  if PreloadSize1 > FileSize then FileSize else PreloadSize1

/-- The method `FWwiseFileCacheHandle::ProcessPreload`. -/
def ProcessPreload (env : Env) (w : World) : World :=
  if w.handle.PreloadSize = 0 then
    deleteInitializationStat (CallDoneInitializationDone env.FileCache w true)
  else
    let PreloadSize1 :=
      effectivePreloadSize w.handle.PreloadSize w.handle.Granularity w.handle.FileSize
    let w1 := { w with handle := { w.handle with PreloadSize := PreloadSize1 } }
    if w1.handle.PreloadSize > 0 then
      let w2 := emit w1 (.NewArray w1.handle.PreloadSize env.NewArray)
      match env.NewArray with
      | none => deleteInitializationStat (CallDoneInitializationDone env.FileCache w2 false)
      | some TempPreloadData =>
        let fresh := List.replicate w2.handle.PreloadSize.toNat 0
        let w3 := { w2 with mem := Function.update w2.mem TempPreloadData fresh }
        ReadData env w3 TempPreloadData 0 w3.handle.PreloadSize w3.handle.PreloadPriority
          (.preload TempPreloadData)
    else
      halt w1 .CheckFailed

/-- The assignment `FileSize = Request->GetSizeResults();`. -/
def setFileSize (w : World) (GetSizeResults : Int) : World :=
  { w with handle := { w.handle with FileSize := GetSizeResults } }

/-- The method `FWwiseFileCacheHandle::OnSizeRequestDone`. `GetSizeResults` is what
`Request->GetSizeResults()` answers. -/
def OnSizeRequestDone (env : Env) (w : World) (bWasCancelled : Bool) (Request : RequestId)
    (GetSizeResults : Int) : World :=
  let _ := bWasCancelled
  let w1 := setFileSize w GetSizeResults
  andThen (ProcessPreload env w1) fun w2 =>
    let w3 :=
      match env.FileCache with
      | some _ => emit w2 (.Async [.WaitCompletion (some Request), .DeleteRequest (some Request)])
      | none => w2
    if w3.handle.FileSize = 0 then
      deleteInitializationStat (CallDoneInitializationDone env.FileCache w3 false)
    else
      w3

/-- The method `FWwiseFileCacheHandle::Open`. -/
def Open (env : Env) (w : World) (OnDone : Nat) : World :=
  if w.handle.InitializationStat then
    halt w .CheckFailed
  else if w.handle.FileHandle.isSome then
    halt w .CheckFailed
  else
    let w1 := { w with
      handle := { w.handle with
        InitializationStat := true,
        InitializationDone := some OnDone,
        FileHandle := env.OpenAsyncRead },
      trace := w.trace ++ [.OpenAsyncRead] }
    match env.OpenAsyncRead with
    | none => deleteInitializationStat (CallDoneInitializationDone env.FileCache w1 false)
    | some fh =>
      let w2 := emit w1 (.SizeRequest fh)
      match env.SizeRequest with
      | none => deleteInitializationStat (CallDoneInitializationDone env.FileCache w2 false)
      | some _ => w2

/-- The engine-side priority constants `AK_DEFAULT_PRIORITY`, `AK_MIN_PRIORITY` and
`AK_MAX_PRIORITY`; the header defining them is not among the sources, so `ReadAkData` takes
them as a parameter. -/
structure AkPriorityConstants where
  AK_DEFAULT_PRIORITY : Int
  AK_MIN_PRIORITY : Int
  AK_MAX_PRIORITY : Int
  deriving DecidableEq, Repr

/-- The values the Wwise SDK gives the three constants. -/
def AkPriorityConstants.sdk : AkPriorityConstants :=
  { AK_DEFAULT_PRIORITY := 50, AK_MIN_PRIORITY := 0, AK_MAX_PRIORITY := 100 }

/-- The method `FWwiseFileCacheHandle::ReadAkData(OutBuffer, Offset, BytesToRead, AkPriority,
OnDone)`.
`AkPriority` is an `int8`, promoted to `int` by each comparison. -/
def ReadAkData (c : AkPriorityConstants) (env : Env) (w : World) (OutBuffer : Ptr)
    (Offset BytesToRead : Int) (AkPriority : Int) (OnDone : FWwiseFileOperationDone) : World :=
  let Priority : EAsyncIOPriorityAndFlags :=
    if AkPriority = c.AK_DEFAULT_PRIORITY then
      .AIOP_Normal
    else if AkPriority ≤ c.AK_MIN_PRIORITY then
      .AIOP_MIN
    else if AkPriority ≥ c.AK_MAX_PRIORITY then
      .AIOP_MAX
    else if AkPriority < 50 then
      .AIOP_Low
    else
      .AIOP_High
  ReadData env w OutBuffer Offset BytesToRead Priority OnDone

/-- The destructor `FWwiseFileCacheHandle::~FWwiseFileCacheHandle`. The log lines on
`ReadDataInProcess` and
the statistics have no effect on control flow and are left out. -/
def destructor (FileCache : Option FWwiseFileCache) (w : World) : World :=
  let w1 := { w with
    handle := { w.handle with PreloadData := none },
    trace := w.trace ++ [.DeleteArray w.handle.PreloadData] }
  let w2 :=
    match FileCache with
    | none => emit w1 (.DeleteFileHandle w1.handle.FileHandle)
    | some _ => w1
  match FileCache with
  | none => halt w2 .NullFileCacheDeref
  | some _ =>
    let w3 := emit w2 (.AsyncWait [.DeleteFileHandle w2.handle.FileHandle])
    { w3 with handle := { w3.handle with FileHandle := none } }

/-- The manager's thread pool runs its oldest task, `[bResult, OnDone] { OnDone(bResult); }`. -/
def runPoolTask (w : World) : World :=
  andThen w fun w0 =>
    match w0.pool with
    | [] => w0
    | (OnDone, bResult) :: rest => invoke { w0 with pool := rest } OnDone bResult

/-- The thread pool runs `n` tasks. -/
def runPoolTasks : Nat → World → World
  | 0, w => w
  | n + 1, w => runPoolTasks n (runPoolTask w)

/-- The thread pool runs every task it holds. -/
def drainPool (w : World) : World := runPoolTasks w.pool.length w

/-- The platform completes the read request `Request` in flight: it has put `data` at the
start of the request's buffer, and it calls the request's `ReadCallbackFunction`, once, with
the request itself. `FileCache` is what `FWwiseFileCache::Get()` answers during the callback. -/
def ReadRequestDone (FileCache : Option FWwiseFileCache) (w : World) (Request : RequestId)
    (bWasCancelled GetReadResults : Bool) (data : List Nat) : World :=
  andThen w fun w0 =>
    match w0.reads.find? (fun r => r.Request == Request) with
    | none => w0
    | some r =>
      let w1 := { w0 with
        reads := w0.reads.eraseP (fun r => r.Request == Request),
        mem := Function.update w0.mem r.OutBuffer (data ++ (w0.mem r.OutBuffer).drop data.length) }
      ReadCallbackFunction FileCache w1 r.OnDone bWasCancelled (some Request) GetReadResults

/-- The arguments with which the caller's closure `OnDone` has run, oldest first. -/
def callsOf (OnDone : Nat) (trace : List Effect) : List Bool :=
  trace.filterMap fun e =>
    match e with
    | .Call id bResult => if id = OnDone then some bResult else none
    | _ => none

/-- Whether an effect is a platform read request. -/
def Effect.isReadRequest : Effect → Bool
  | .ReadRequest _ _ _ _ _ => true
  | _ => false

/-- Whether an effect is a copy between buffers. -/
def Effect.isMemcpy : Effect → Bool
  | .Memcpy _ _ _ => true
  | _ => false

/-- The tasks handed to the manager's execution queue, with `Async` or `AsyncWait`, oldest
first. -/
def queueTasks (trace : List Effect) : List (List QueueOp) :=
  trace.filterMap fun e =>
    match e with
    | .Async Task => some Task
    | .AsyncWait Task => some Task
    | _ => none

/-- The handle constructed, opened with the caller's closure `OnDone`, and told the answer
`FileSize` of its size query: constructor, `Open`, `OnSizeRequestDone`. -/
def sizeResolved (env0 env1 : Env) (PreloadSize Granularity : Int)
    (PreloadPriority : EAsyncIOPriorityAndFlags) (mem : Ptr → List Nat) (OnDone : Nat)
    (bWasCancelled : Bool) (Request : RequestId) (FileSize : Int) : World :=
  OnSizeRequestDone env1 (Open env0 (World.init PreloadSize PreloadPriority Granularity mem) OnDone)
    bWasCancelled Request FileSize

/-- The platform completes the read request `Request`, then the thread pool runs what it was
given. -/
def readCompleted (FileCache : Option FWwiseFileCache) (w : World) (Request : RequestId)
    (bWasCancelled GetReadResults : Bool) (data : List Nat) : World :=
  drainPool (ReadRequestDone FileCache w Request bWasCancelled GetReadResults data)

/-- One thing that happens to a handle: a call by its owner (`Open`, `ReadData`), a
completion by the platform (`OnSizeRequestDone`, `ReadRequestDone`), or the thread pool
running its oldest task. -/
inductive Event
  | Open (env : Env) (OnDone : Nat)
  | OnSizeRequestDone (env : Env) (bWasCancelled : Bool) (Request : RequestId)
      (GetSizeResults : Int)
  | ReadData (env : Env) (OutBuffer : Ptr) (Offset BytesToRead : Int)
      (Priority : EAsyncIOPriorityAndFlags) (OnDone : Nat)
  | ReadRequestDone (FileCache : Option FWwiseFileCache) (Request : RequestId)
      (bWasCancelled GetReadResults : Bool) (data : List Nat)
  | runPoolTask

/-- The world after an event; nothing runs once execution has stopped. -/
def Event.run (w : World) : Event → World
  | .Open env OnDone => andThen w fun w0 => Wwise.Open env w0 OnDone
  | .OnSizeRequestDone env bWasCancelled Request GetSizeResults =>
    andThen w fun w0 => Wwise.OnSizeRequestDone env w0 bWasCancelled Request GetSizeResults
  | .ReadData env OutBuffer Offset BytesToRead Priority OnDone =>
    andThen w fun w0 => Wwise.ReadData env w0 OutBuffer Offset BytesToRead Priority (.user OnDone)
  | .ReadRequestDone FileCache Request bWasCancelled GetReadResults data =>
    Wwise.ReadRequestDone FileCache w Request bWasCancelled GetReadResults data
  | .runPoolTask => Wwise.runPoolTask w

/-- The world after a sequence of events, oldest first. -/
def runEvents (w : World) (events : List Event) : World := events.foldl Event.run w

/-! ## The execution queue

`WwiseExecutionQueue.h` declares the queue; the bodies of its methods are not among the
sources, so they are modelled from the specification. Atomic steps are interleaved one at a
time. -/

/-- The worker states of the execution queue (`FWwiseExecutionQueue::EWorkerState`). -/
inductive EWorkerState
  | Stopped
  | Running
  | Closing
  | Closed
  deriving DecidableEq, Repr

/-- Modelled from the spec: the data of `FWwiseExecutionQueue` (section 3, ExecutionQueue),
whose method bodies are missing from the sources: the atomic worker state, the ordered
sequence of accepted task closures not yet run (`OpQueue`; a task is identified by a number),
and, as an observation, the tasks the worker has run so far, oldest first. -/
structure FWwiseExecutionQueue where
  WorkerState : EWorkerState
  OpQueue : List Nat
  executed : List Nat
  deriving DecidableEq, Repr

/-- Modelled from the spec: `FWwiseExecutionQueue::Async(FBasicFunction&&)`, missing from the
sources. Section 4.1: `submit(task)` enqueues the task and returns whether the request was
accepted (rejected once closing/closed); on enqueue, if the state is Stopped, a transition to
Running is made and a worker iteration is scheduled. -/
def FWwiseExecutionQueue.Async (q : FWwiseExecutionQueue) (InFunction : Nat) :
    FWwiseExecutionQueue × Bool :=
  match q.WorkerState with
  | .Closing => (q, false)
  | .Closed => (q, false)
  | .Stopped => ({ q with OpQueue := q.OpQueue ++ [InFunction], WorkerState := .Running }, true)
  | .Running => ({ q with OpQueue := q.OpQueue ++ [InFunction] }, true)

/-- Modelled from the spec: `FWwiseExecutionQueue::Close()`, missing from the sources.
Section 4.1: `Close()` transitions Running/Stopped to Closing; section 3: the transition is
made only by an explicit close request and is irreversible. -/
def FWwiseExecutionQueue.Close (q : FWwiseExecutionQueue) : FWwiseExecutionQueue :=
  match q.WorkerState with
  | .Stopped => { q with WorkerState := .Closing }
  | .Running => { q with WorkerState := .Closing }
  | .Closing => q
  | .Closed => q

/-- Modelled from the spec: one iteration of the worker (`FWwiseExecutionQueue::Work`, missing
from the sources). Section 4.1: the worker dequeues and executes tasks until the queue is
observed empty, then goes from Running to Stopped; it goes from Closing to Closed once it
finishes its drain pass. -/
def FWwiseExecutionQueue.Work (q : FWwiseExecutionQueue) : FWwiseExecutionQueue :=
  match q.WorkerState, q.OpQueue with
  | .Running, t :: rest => { q with OpQueue := rest, executed := q.executed ++ [t] }
  | .Closing, t :: rest => { q with OpQueue := rest, executed := q.executed ++ [t] }
  | .Running, [] => { q with WorkerState := .Stopped }
  | .Closing, [] => { q with WorkerState := .Closed }
  | .Stopped, _ => q
  | .Closed, _ => q

/-- Modelled from the spec: `FWwiseExecutionQueue::IsBeingClosed()`, missing from the
sources; section 4.1 makes it a read-only observer of the state. It reports a queue whose
close was requested: Closing or Closed. -/
def FWwiseExecutionQueue.IsBeingClosed (q : FWwiseExecutionQueue) : Bool :=
  match q.WorkerState with
  | .Closing => true
  | .Closed => true
  | _ => false

/-- Modelled from the spec: `FWwiseExecutionQueue::IsClosed()`, missing from the sources;
section 4.1 makes it a read-only observer of the state. It reports the state Closed. -/
def FWwiseExecutionQueue.IsClosed (q : FWwiseExecutionQueue) : Bool :=
  match q.WorkerState with
  | .Closed => true
  | _ => false

/-- What can happen to an execution queue: a submission, a close request, a worker
iteration. -/
inductive QueueAction
  | Async (InFunction : Nat)
  | Close
  | Work
  deriving DecidableEq, Repr

/-- The queue after an action. -/
def QueueAction.run (q : FWwiseExecutionQueue) : QueueAction → FWwiseExecutionQueue
  | .Async InFunction => (q.Async InFunction).1
  | .Close => q.Close
  | .Work => q.Work

/-- The queue after a sequence of actions, oldest first. -/
def runActions (q : FWwiseExecutionQueue) (actions : List QueueAction) : FWwiseExecutionQueue :=
  actions.foldl QueueAction.run q

/-- A running queue that holds the tasks 1 and 2 and has run task 0. -/
def sampleQueue : FWwiseExecutionQueue :=
  { WorkerState := .Running, OpQueue := [1, 2], executed := [0] }

/-! ## The reads in flight, told from the history

The in-flight counter is compared with a count that does not look at what `ReadData` writes:
the requests in flight are told from the sequence of events, each event adding the request
the platform created for a read handed to it, or taking away the request it completes. -/

/-- Specification side: whether a `ReadData(Offset, BytesToRead)` on this handle is handed to
the platform: the handle has a native file handle, the read is not served from the preload
buffer (offset 0, preload buffer present, length equal to the preload size), and the length
is positive. -/
def goesToPlatform (w : World) (Offset BytesToRead : Int) : Bool :=
  w.handle.FileHandle.isSome &&
    !(decide (Offset = 0) && w.handle.PreloadData.isSome &&
      decide (BytesToRead = w.handle.PreloadSize)) &&
    decide (0 < BytesToRead)

/-- Specification side: the request a `ReadData` call leaves in flight: the one the platform
created, when the call is handed to the platform; none when the call completes within
itself (no file handle, preload buffer used, request refused by the platform). -/
def leftInFlight (env : Env) (w : World) (Offset BytesToRead : Int) : List RequestId :=
  if goesToPlatform w Offset BytesToRead then env.ReadRequest.toList else []

/-- Specification side: the request the preload decision leaves in flight after a size
query that resolved `FileSize`: a preload read is issued when a preload is requested, its
size clamped to the file is positive and its buffer is allocated; it is handed to the
platform on a handle with a file handle and no preload buffer yet. -/
def preloadLeftInFlight (env : Env) (w : World) (FileSize : Int) : List RequestId :=
  if w.handle.PreloadSize ≠ 0 ∧
      0 < effectivePreloadSize w.handle.PreloadSize w.handle.Granularity FileSize ∧
      env.NewArray.isSome = true ∧ w.handle.FileHandle.isSome = true ∧
      w.handle.PreloadData.isSome = false then
    env.ReadRequest.toList
  else
    []

/-- Specification side: the requests in flight after an event, given those in flight before
it and the world it happens in. -/
def Event.inFlight (w : World) (pending : List RequestId) : Event → List RequestId
  | .Open _ _ => pending
  | .OnSizeRequestDone env _ _ GetSizeResults =>
    pending ++ preloadLeftInFlight env w GetSizeResults
  | .ReadData env _ Offset BytesToRead _ _ => pending ++ leftInFlight env w Offset BytesToRead
  | .ReadRequestDone _ Request _ _ _ => pending.erase Request
  | .runPoolTask => pending

/-- Specification side: the requests in flight after a sequence of events, oldest first; an
event that finds execution stopped does not happen. -/
def inFlightAfter (w : World) (pending : List RequestId) : List Event → List RequestId
  | [] => pending
  | e :: events =>
    inFlightAfter (e.run w) (if w.fault then pending else e.inFlight w pending) events

/-- A step from `w` to `w'` puts the requests `added` in flight and counts them: unless
execution stopped, the platform holds those of `w` followed by `added`, and the counter went
up by their number (modulo `int32`). -/
def Adds (w w' : World) (added : List RequestId) : Prop :=
  w'.fault = true ∨
  (w'.reads.map (fun r => r.Request) = w.reads.map (fun r => r.Request) ++ added ∧
    ∀ n : Int, w.handle.ReadDataInProcess = wrapInt32 n →
      w'.handle.ReadDataInProcess = wrapInt32 (n + added.length))

/-- The world agrees with the history: unless execution stopped, the platform holds exactly
the requests `pending`, and the counter is their number (modulo `int32`). -/
def Tracks (w : World) (pending : List RequestId) : Prop :=
  w.fault = true ∨
  (w.reads.map (fun r => r.Request) = pending ∧
    w.handle.ReadDataInProcess = wrapInt32 pending.length)

/-! ## A frame condition used in the proofs -/

/-- The world `w'` differs from `w` by callback bookkeeping only: same buffer contents, same
requests in flight, same file handle, sizes and priority, and no platform read request or
buffer copy was added to the trace. -/
structure Quiet (w w' : World) : Prop where
  mem : w'.mem = w.mem
  reads : w'.reads = w.reads
  FileHandle : w'.handle.FileHandle = w.handle.FileHandle
  FileSize : w'.handle.FileSize = w.handle.FileSize
  PreloadSize : w'.handle.PreloadSize = w.handle.PreloadSize
  PreloadPriority : w'.handle.PreloadPriority = w.handle.PreloadPriority
  Granularity : w'.handle.Granularity = w.handle.Granularity
  readRequests : w'.trace.filter Effect.isReadRequest = w.trace.filter Effect.isReadRequest
  memcpys : w'.trace.filter Effect.isMemcpy = w.trace.filter Effect.isMemcpy


/-! ## Sample surroundings used by the concrete evaluations -/

/-- The manager is reachable and its thread pool exists. -/
def managerReachable : Option FWwiseFileCache := some { FileCacheThreadPool := true }

/-- The manager is unreachable: `FWwiseFileCache::Get()` answers null. -/
def managerUnreachable : Option FWwiseFileCache := none

/-- Surroundings in which every platform call succeeds: file handle 7, size request 1, a
preload buffer at address 100, read request 2. -/
def sampleEnv (FileCache : Option FWwiseFileCache) : Env :=
  { FileCache := FileCache
    OpenAsyncRead := some 7
    SizeRequest := some 1
    NewArray := some 100
    ReadRequest := some 2 }

/-- Buffers of six bytes, all holding `9`, at every address callers use. -/
def sampleMem : Ptr → List Nat := fun _ => [9, 9, 9, 9, 9, 9]

/-- A handle constructed with the given preload size and granularity, then opened with the
caller's closure 5, every platform call succeeding. -/
def opened (FileCache : Option FWwiseFileCache) (PreloadSize Granularity : Int) : World :=
  Open (sampleEnv FileCache) (World.init PreloadSize .AIOP_BelowNormal Granularity sampleMem) 5

/-- The opened handle once its size query has completed with `FileSize` and the thread pool
has run what it was given. -/
def sized (FileCache : Option FWwiseFileCache) (PreloadSize Granularity FileSize : Int) : World :=
  drainPool
    (OnSizeRequestDone (sampleEnv FileCache) (opened FileCache PreloadSize Granularity) false 1
      FileSize)

/-- The opened handle at the point where `OnSizeRequestDone` has stored the resolved
`FileSize` and is about to call `ProcessPreload`. -/
def sizeStored (FileCache : Option FWwiseFileCache) (PreloadSize Granularity FileSize : Int) :
    World :=
  setFileSize (opened FileCache PreloadSize Granularity) FileSize

/-- A handle whose `Open` failed because the size request could not be created, after the
thread pool has delivered the report of failure to the caller's closure 5. -/
def sizeRequestFailed : World :=
  drainPool
    (Open { sampleEnv managerReachable with SizeRequest := none }
      (World.init 0 .AIOP_BelowNormal 1 sampleMem) 5)

/-- A handle whose `Open` failed because the platform open returned null, after the thread
pool has delivered the report of failure to the caller's closure 5. -/
def openFailed : World :=
  drainPool
    (Open { sampleEnv managerReachable with OpenAsyncRead := none }
      (World.init 0 .AIOP_BelowNormal 1 sampleMem) 5)

/-- The handle constructed with a preload size of 4 and granularity 1, opened on a file of
10 bytes, once its preload read has completed successfully with the bytes 1, 2, 3, 4 and the
thread pool has run what it was given. -/
def preloaded : World :=
  drainPool (ReadRequestDone managerReachable (sized managerReachable 4 1 10) 2 false true [1, 2, 3, 4])

/-- Surroundings in which the manager is reachable and the platform refuses to create read
requests: `ReadRequest` answers null. -/
def readRequestRefused : Env := { sampleEnv managerReachable with ReadRequest := none }

/-- A sample life of a handle: opened with a preload size of 4, sized at 10 bytes (the
preload read, request 2, is in flight), asked for 2 bytes at offset 6 (request 3 is in
flight too), then the preload read completes and the thread pool runs its task. -/
def sampleEvents : List Event :=
  [.Open (sampleEnv managerReachable) 5,
    .OnSizeRequestDone (sampleEnv managerReachable) false 1 10,
    .ReadData { sampleEnv managerReachable with ReadRequest := some 3 } 3 6 2 .AIOP_Normal 6,
    .ReadRequestDone managerReachable 2 false true [1, 2, 3, 4],
    .runPoolTask]

/-- Surroundings in which the manager is reachable and the preload buffer cannot be
allocated: `new` answers null. -/
def allocationFails : Env := { sampleEnv managerReachable with NewArray := none }

/-! ## Theorems -/

/-! ### Auxiliary facts -/

theorem wrapInt64_of_range {x : Int} (h1 : -2 ^ 63 ≤ x) (h2 : x < 2 ^ 63) : wrapInt64 x = x := by
  unfold wrapInt64
  norm_num at h1 h2 ⊢
  omega

/-- Without overflow, the size computed by `ProcessPreload` is the least multiple of the
granularity that is at least the requested size (the requested size itself for a granularity
of at most 1), clamped to the file size. -/
theorem effectivePreloadSize_eq_min {P G F R : Int} (hP : 0 < P)
    (hR : if G > 1 then G ∣ R ∧ P ≤ R ∧ ∀ m : Int, G ∣ m → P ≤ m → R ≤ m else R = P)
    (hRr : R < 2 ^ 63) : effectivePreloadSize P G F = min R F := by
  have key : (if G > 1 then
      wrapInt64 ((if P.tmod G > 0 then wrapInt64 (P.tdiv G + 1) else P.tdiv G) * G)
      else P) = R := by
    by_cases hG : G > 1
    · simp only [hG, if_true] at hR ⊢
      obtain ⟨⟨k, hk⟩, hPR, hleast⟩ := hR
      have hG0 : (0 : Int) ≤ G := by omega
      rw [Int.tdiv_eq_ediv hP.le hG0, Int.tmod_eq_emod hP.le hG0]
      have hdm := Int.emod_add_ediv P G
      have hm0 := Int.emod_nonneg P (show G ≠ 0 by omega)
      have hmlt := Int.emod_lt_of_pos P (show 0 < G by omega)
      have hq0 : 0 ≤ P / G := Int.ediv_nonneg hP.le hG0
      by_cases hr : P % G > 0
      · simp only [hr, if_true]
        have hc1 : R ≤ G * (P / G + 1) := by
          apply hleast _ (Dvd.intro _ rfl)
          nlinarith
        have hkq : P / G + 1 ≤ k := by
          by_contra hcon
          have : k ≤ P / G := by omega
          have : G * k ≤ G * (P / G) := by nlinarith
          omega
        have hc2 : G * (P / G + 1) ≤ R := by rw [hk]; nlinarith
        have hRe : R = (P / G + 1) * G := by linarith
        have hq1 : P / G + 1 ≤ R := by nlinarith
        rw [wrapInt64_of_range (x := P / G + 1) (by omega) (by omega)]
        rw [wrapInt64_of_range (by omega) (by omega)]
        exact hRe.symm
      · simp only [hr, if_false]
        have hr0 : P % G = 0 := by omega
        have hPe : P = (P / G) * G := by nlinarith
        have hc1 : R ≤ P := hleast P ⟨P / G, by linarith⟩ le_rfl
        have hRe : R = P := le_antisymm hc1 hPR
        rw [← hPe, wrapInt64_of_range (by omega) (by omega)]
        exact hRe.symm
    · simp only [hG, if_false] at hR ⊢
      exact hR.symm
  unfold effectivePreloadSize
  simp only [key]
  by_cases h : R > F
  · simp [h, min_eq_right (le_of_lt h)]
  · simp [h, min_eq_left (not_lt.mp h)]


/-- Nothing happened. -/
theorem Quiet.refl (w : World) : Quiet w w := by
  constructor <;> rfl

/-- Bookkeeping after bookkeeping. -/
theorem Quiet.trans {a b c : World} (h1 : Quiet a b) (h2 : Quiet b c) : Quiet a c := by
  constructor
  · rw [h2.mem, h1.mem]
  · rw [h2.reads, h1.reads]
  · rw [h2.FileHandle, h1.FileHandle]
  · rw [h2.FileSize, h1.FileSize]
  · rw [h2.PreloadSize, h1.PreloadSize]
  · rw [h2.PreloadPriority, h1.PreloadPriority]
  · rw [h2.Granularity, h1.Granularity]
  · rw [h2.readRequests, h1.readRequests]
  · rw [h2.memcpys, h1.memcpys]

/-- The method `OnPreloadRequestDone` reads and copies nothing. -/
theorem OnPreloadRequestDone_quiet (w : World) (b : Bool) (p : Ptr) :
    Quiet w (OnPreloadRequestDone w b p) := by
  unfold OnPreloadRequestDone
  cases b <;> cases h : w.handle.InitializationDone <;> cases hf : w.fault <;>
    constructor <;> simp [emit, halt, andThen, h, hf, Effect.isReadRequest, Effect.isMemcpy]

/-- Calling a completion closure reads and copies nothing. -/
theorem invoke_quiet (w : World) (cb : Option FWwiseFileOperationDone) (b : Bool) :
    Quiet w (invoke w cb b) := by
  unfold invoke
  rcases cb with _ | ⟨id⟩ | ⟨p⟩
  · constructor <;> simp [halt, Effect.isReadRequest, Effect.isMemcpy]
  · constructor <;> simp [emit, Effect.isReadRequest, Effect.isMemcpy]
  · exact OnPreloadRequestDone_quiet w b p

/-- The method `CallDone` reads and copies nothing. -/
theorem CallDone_quiet (fc : Option FWwiseFileCache) (w : World) (b : Bool)
    (cb : Option FWwiseFileOperationDone) : Quiet w (CallDone fc w b cb) := by
  unfold CallDone
  split
  · constructor <;> simp [Effect.isReadRequest, Effect.isMemcpy]
  · exact invoke_quiet w cb b

/-- Reporting through `InitializationDone` reads and copies nothing. -/
theorem CallDoneInitializationDone_quiet (fc : Option FWwiseFileCache) (w : World) (b : Bool) :
    Quiet w (CallDoneInitializationDone fc w b) := by
  have h := CallDone_quiet fc w b (w.handle.InitializationDone.map .user)
  unfold CallDoneInitializationDone
  split
  · constructor
    · exact h.mem
    · exact h.reads
    · exact h.FileHandle
    · exact h.FileSize
    · exact h.PreloadSize
    · exact h.PreloadPriority
    · exact h.Granularity
    · exact h.readRequests
    · exact h.memcpys
  · exact h

/-- The method `OnReadDataDone` reads and copies nothing. -/
theorem OnReadDataDone_quiet (fc : Option FWwiseFileCache) (w : World) (b : Bool)
    (cb : FWwiseFileOperationDone) : Quiet w (OnReadDataDone fc w b cb) := by
  unfold OnReadDataDone
  refine Quiet.trans ?_ (CallDone_quiet fc _ b (some cb))
  constructor <;> rfl

/-- The read callback reads and copies nothing. -/
theorem ReadCallbackFunction_quiet (fc : Option FWwiseFileCache) (w : World)
    (cb : FWwiseFileOperationDone) (c : Bool) (r : Option RequestId) (g : Bool) :
    Quiet w (ReadCallbackFunction fc w cb c r g) := by
  have h := OnReadDataDone_quiet fc w (!c && r.isSome && g) cb
  simp only [ReadCallbackFunction, OnReadDataDoneRequest, andThen]
  by_cases hf : (OnReadDataDone fc w (!c && r.isSome && g) cb).fault = true
  · simpa [hf] using h
  · simp only [hf]
    refine Quiet.trans h ?_
    cases fc
    · exact Quiet.refl _
    · constructor <;> simp [emit, Effect.isReadRequest, Effect.isMemcpy]

/-- The tail of `ReadData`, from the declaration of `ReadCallbackFunction` on, run for a
positive length in a world `w1` whose trace and buffers are those of `w`: one platform read
request is added, nothing is copied. -/
theorem ReadData_tail (env : Env) (w w1 : World) (fh : FileHandleId) (OutBuffer : Ptr)
    (Offset BytesToRead : Int) (Priority : EAsyncIOPriorityAndFlags)
    (OnDone : FWwiseFileOperationDone) (hlen : BytesToRead > 0)
    (ht : w1.trace = w.trace) (hm : w1.mem = w.mem) :
    (if BytesToRead > 0 then
        match env.ReadRequest with
        | some Request =>
          { emit w1 (.ReadRequest fh Offset BytesToRead Priority OutBuffer) with
            reads := (emit w1 (.ReadRequest fh Offset BytesToRead Priority OutBuffer)).reads ++
              [⟨Request, OnDone, BytesToRead, OutBuffer⟩] }
        | none => ReadCallbackFunction env.FileCache
            (emit w1 (.ReadRequest fh Offset BytesToRead Priority OutBuffer)) OnDone true none
            false
      else halt w1 .CheckFailed).trace.filter Effect.isReadRequest =
        w.trace.filter Effect.isReadRequest ++
          [.ReadRequest fh Offset BytesToRead Priority OutBuffer] ∧
    (if BytesToRead > 0 then
        match env.ReadRequest with
        | some Request =>
          { emit w1 (.ReadRequest fh Offset BytesToRead Priority OutBuffer) with
            reads := (emit w1 (.ReadRequest fh Offset BytesToRead Priority OutBuffer)).reads ++
              [⟨Request, OnDone, BytesToRead, OutBuffer⟩] }
        | none => ReadCallbackFunction env.FileCache
            (emit w1 (.ReadRequest fh Offset BytesToRead Priority OutBuffer)) OnDone true none
            false
      else halt w1 .CheckFailed).trace.filter Effect.isMemcpy =
        w.trace.filter Effect.isMemcpy ∧
    (if BytesToRead > 0 then
        match env.ReadRequest with
        | some Request =>
          { emit w1 (.ReadRequest fh Offset BytesToRead Priority OutBuffer) with
            reads := (emit w1 (.ReadRequest fh Offset BytesToRead Priority OutBuffer)).reads ++
              [⟨Request, OnDone, BytesToRead, OutBuffer⟩] }
        | none => ReadCallbackFunction env.FileCache
            (emit w1 (.ReadRequest fh Offset BytesToRead Priority OutBuffer)) OnDone true none
            false
      else halt w1 .CheckFailed).mem = w.mem := by
  simp only [hlen, if_true]
  cases env.ReadRequest with
  | some Request => simp [emit, ht, hm, Effect.isReadRequest, Effect.isMemcpy]
  | none =>
    have q := ReadCallbackFunction_quiet env.FileCache
      (emit w1 (.ReadRequest fh Offset BytesToRead Priority OutBuffer)) OnDone true none false
    simp only []
    rw [q.readRequests, q.memcpys, q.mem]
    simp [emit, ht, hm, Effect.isReadRequest, Effect.isMemcpy]

/-- A `ReadData` of positive length on a handle that has a file handle and no preload buffer
issues one platform read and copies nothing. -/
theorem ReadData_without_preload (env : Env) (w : World) (fh : FileHandleId)
    (OutBuffer : Ptr) (Offset BytesToRead : Int) (Priority : EAsyncIOPriorityAndFlags)
    (OnDone : FWwiseFileOperationDone)
    (hfh : w.handle.FileHandle = some fh) (hlen : BytesToRead > 0)
    (hpd : w.handle.PreloadData = none) :
    (ReadData env w OutBuffer Offset BytesToRead Priority OnDone).trace.filter
        Effect.isReadRequest =
      w.trace.filter Effect.isReadRequest ++
        [.ReadRequest fh Offset BytesToRead Priority OutBuffer] ∧
    (ReadData env w OutBuffer Offset BytesToRead Priority OnDone).trace.filter Effect.isMemcpy =
      w.trace.filter Effect.isMemcpy ∧
    (ReadData env w OutBuffer Offset BytesToRead Priority OnDone).mem = w.mem := by
  simp only [ReadData, hfh, hpd]
  exact ReadData_tail env w _ fh OutBuffer Offset BytesToRead Priority OnDone hlen rfl rfl

/-- The effective preload size never exceeds the file size. -/
theorem effectivePreloadSize_le (P G F : Int) : effectivePreloadSize P G F ≤ F := by
  have h : ∀ X : Int, (if X > F then F else X) ≤ F := by
    intro X
    split <;> omega
  exact h _

/-- The world after constructor, `Open` and `OnSizeRequestDone` when a preload is requested,
its buffer is allocated and the platform accepts the preload read: the read is in flight and
nothing has been reported yet. -/
theorem sized_with_read_in_flight (env0 env1 : Env) (P G F : Int)
    (prio : EAsyncIOPriorityAndFlags) (mem : Ptr → List Nat) (cb : Nat) (bc : Bool)
    (rq : RequestId) (fh : FileHandleId) (p : Ptr) (Request : RequestId)
    (hopen : env0.OpenAsyncRead = some fh) (hsz : env0.SizeRequest = some rq)
    (hP : P ≠ 0) (hE : 0 < effectivePreloadSize P G F) (hnew : env1.NewArray = some p)
    (hrr : env1.ReadRequest = some Request) :
    sizeResolved env0 env1 P G prio mem cb bc rq F =
      { handle :=
          { FileHandle := some fh
            FileSize := F
            PreloadSize := effectivePreloadSize P G F
            PreloadPriority := prio
            PreloadData := none
            Granularity := G
            InitializationDone := some cb
            InitializationStat := true
            ReadDataInProcess := 1 }
        mem := Function.update mem p (List.replicate (effectivePreloadSize P G F).toNat 0)
        pool := []
        reads := [⟨Request, .preload p, effectivePreloadSize P G F, p⟩]
        trace := [.OpenAsyncRead, .SizeRequest fh, .NewArray (effectivePreloadSize P G F) (some p),
          .ReadRequest fh 0 (effectivePreloadSize P G F) prio p] ++
          (if env1.FileCache.isSome then
            [.Async [.WaitCompletion (some rq), .DeleteRequest (some rq)]] else [])
        fault := false } := by
  have hF : F ≠ 0 := by
    have := effectivePreloadSize_le P G F
    omega
  cases hfc : env1.FileCache <;>
  simp [sizeResolved, OnSizeRequestDone, setFileSize, Open, World.init, FWwiseFileCacheHandle.new, hopen, hsz,
    emit, andThen, ProcessPreload, hP, hE, hnew, ReadData, hrr, hF, hfc, wrapInt32]

/-- What the handle looks like once the preload read in flight has completed and the thread
pool has run: the caller's closure got the read's result once, the buffer is retained exactly
on success, and it holds what the platform put there. -/
theorem read_completion_of_preload (env0 env1 : Env) (fc : Option FWwiseFileCache)
    (P G F : Int) (prio : EAsyncIOPriorityAndFlags) (mem : Ptr → List Nat) (cb : Nat) (bc : Bool)
    (rq : RequestId) (fh : FileHandleId) (p : Ptr) (Request : RequestId)
    (bWasCancelled GetReadResults : Bool) (data : List Nat)
    (hopen : env0.OpenAsyncRead = some fh) (hsz : env0.SizeRequest = some rq)
    (hP : P ≠ 0) (hE : 0 < effectivePreloadSize P G F) (hnew : env1.NewArray = some p)
    (hrr : env1.ReadRequest = some Request) :
    callsOf cb (readCompleted fc (sizeResolved env0 env1 P G prio mem cb bc rq F) Request
      bWasCancelled GetReadResults data).trace = [!bWasCancelled && GetReadResults] ∧
    (readCompleted fc (sizeResolved env0 env1 P G prio mem cb bc rq F) Request
      bWasCancelled GetReadResults data).handle.PreloadData =
        (if (!bWasCancelled && GetReadResults) then some p else none) ∧
    (readCompleted fc (sizeResolved env0 env1 P G prio mem cb bc rq F) Request
      bWasCancelled GetReadResults data).handle.PreloadSize = effectivePreloadSize P G F ∧
    (readCompleted fc (sizeResolved env0 env1 P G prio mem cb bc rq F) Request
      bWasCancelled GetReadResults data).handle.FileHandle = some fh ∧
    (readCompleted fc (sizeResolved env0 env1 P G prio mem cb bc rq F) Request
      bWasCancelled GetReadResults data).fault = false ∧
    (readCompleted fc (sizeResolved env0 env1 P G prio mem cb bc rq F) Request
      bWasCancelled GetReadResults data).mem p =
        data ++ (List.replicate (effectivePreloadSize P G F).toNat 0).drop data.length := by
  unfold readCompleted
  rw [sized_with_read_in_flight env0 env1 P G F prio mem cb bc rq fh p Request hopen hsz hP hE
    hnew hrr]
  rcases fc with _ | ⟨_ | _⟩ <;> cases bWasCancelled <;> cases GetReadResults <;>
    cases env1.FileCache <;>
    simp [ReadRequestDone, andThen, ReadCallbackFunction, OnReadDataDoneRequest, OnReadDataDone,
      CallDone, CallDoneMoves, invoke, OnPreloadRequestDone, emit, halt, drainPool, runPoolTasks,
      runPoolTask, callsOf]

/-- What the handle looks like when the platform refuses the preload read request and the
thread pool has run: the caller's closure got `false` once and no buffer is retained. -/
theorem preload_request_not_created (env0 env1 : Env)
    (P G F : Int) (prio : EAsyncIOPriorityAndFlags) (mem : Ptr → List Nat) (cb : Nat) (bc : Bool)
    (rq : RequestId) (fh : FileHandleId) (p : Ptr)
    (hopen : env0.OpenAsyncRead = some fh) (hsz : env0.SizeRequest = some rq)
    (hP : P ≠ 0) (hE : 0 < effectivePreloadSize P G F) (hnew : env1.NewArray = some p)
    (hrr : env1.ReadRequest = none) :
    callsOf cb (drainPool (sizeResolved env0 env1 P G prio mem cb bc rq F)).trace = [false] ∧
    (drainPool (sizeResolved env0 env1 P G prio mem cb bc rq F)).handle.PreloadData = none ∧
    (drainPool (sizeResolved env0 env1 P G prio mem cb bc rq F)).handle.PreloadSize =
      effectivePreloadSize P G F ∧
    (drainPool (sizeResolved env0 env1 P G prio mem cb bc rq F)).handle.FileHandle = some fh ∧
    (drainPool (sizeResolved env0 env1 P G prio mem cb bc rq F)).fault = false := by
  have hF : F ≠ 0 := by
    have := effectivePreloadSize_le P G F
    omega
  rcases hfc : env1.FileCache with _ | ⟨_ | _⟩ <;>
    simp [sizeResolved, OnSizeRequestDone, setFileSize, Open, World.init, FWwiseFileCacheHandle.new, hopen, hsz,
      emit, andThen, ProcessPreload, hP, hE, hnew, ReadData, hrr, hF, hfc, wrapInt32,
      ReadCallbackFunction, OnReadDataDoneRequest, OnReadDataDone,
      CallDone, CallDoneMoves, invoke, OnPreloadRequestDone, halt, drainPool, runPoolTasks,
      runPoolTask, callsOf]

/-- The queue tasks of a trace made of two parts. -/
theorem queueTasks_append (a b : List Effect) :
    queueTasks (a ++ b) = queueTasks a ++ queueTasks b := by
  simp [queueTasks]

/-- The method `OnPreloadRequestDone` hands nothing to the execution queue. -/
theorem OnPreloadRequestDone_queueTasks (w : World) (b : Bool) (p : Ptr) :
    queueTasks (OnPreloadRequestDone w b p).trace = queueTasks w.trace := by
  unfold OnPreloadRequestDone
  cases b <;> cases h : w.handle.InitializationDone <;> cases hf : w.fault <;>
    simp [emit, halt, andThen, h, hf, queueTasks]

/-- Calling a completion closure hands nothing to the execution queue. -/
theorem invoke_queueTasks (w : World) (cb : Option FWwiseFileOperationDone) (b : Bool) :
    queueTasks (invoke w cb b).trace = queueTasks w.trace := by
  unfold invoke
  rcases cb with _ | ⟨id⟩ | ⟨p⟩
  · simp [halt, queueTasks]
  · simp [emit, queueTasks]
  · exact OnPreloadRequestDone_queueTasks w b p

/-- The method `CallDone` hands nothing to the execution queue. -/
theorem CallDone_queueTasks (fc : Option FWwiseFileCache) (w : World) (b : Bool)
    (cb : Option FWwiseFileOperationDone) :
    queueTasks (CallDone fc w b cb).trace = queueTasks w.trace := by
  unfold CallDone
  split
  · simp [queueTasks]
  · exact invoke_queueTasks w cb b

/-- Reporting through `InitializationDone` hands nothing to the execution queue. -/
theorem CallDoneInitializationDone_queueTasks (fc : Option FWwiseFileCache) (w : World)
    (b : Bool) :
    queueTasks (deleteInitializationStat (CallDoneInitializationDone fc w b)).trace =
      queueTasks w.trace := by
  have h := CallDone_queueTasks fc w b (w.handle.InitializationDone.map .user)
  unfold CallDoneInitializationDone deleteInitializationStat
  split <;> exact h

/-- The method `OnReadDataDone` hands nothing to the execution queue. -/
theorem OnReadDataDone_queueTasks (fc : Option FWwiseFileCache) (w : World) (b : Bool)
    (cb : FWwiseFileOperationDone) :
    queueTasks (OnReadDataDone fc w b cb).trace = queueTasks w.trace := by
  unfold OnReadDataDone
  exact CallDone_queueTasks fc _ b (some cb)

/-- The read callback hands the wait-then-delete task of its request to the execution queue
when the manager is reachable and execution goes on, and nothing otherwise. -/
theorem ReadCallbackFunction_queueTasks (fc : Option FWwiseFileCache) (w : World)
    (cb : FWwiseFileOperationDone) (c : Bool) (r : Option RequestId) (g : Bool) :
    queueTasks (ReadCallbackFunction fc w cb c r g).trace =
      queueTasks w.trace ++
        (if (ReadCallbackFunction fc w cb c r g).fault = false ∧ fc.isSome then
          [[.WaitCompletion r, .DeleteRequest r]] else []) := by
  have h := OnReadDataDone_queueTasks fc w (!c && r.isSome && g) cb
  by_cases hf : (OnReadDataDone fc w (!c && r.isSome && g) cb).fault = true
  · have e : ReadCallbackFunction fc w cb c r g =
        OnReadDataDone fc w (!c && r.isSome && g) cb := by
      simp [ReadCallbackFunction, OnReadDataDoneRequest, andThen, hf]
    rw [e, h]
    simp [hf]
  · cases fc with
    | none =>
      have e : ReadCallbackFunction none w cb c r g =
          OnReadDataDone none w (!c && r.isSome && g) cb := by
        simp [ReadCallbackFunction, OnReadDataDoneRequest, andThen, hf]
      rw [e, h]
      simp
    | some v =>
      have e : ReadCallbackFunction (some v) w cb c r g =
          emit (OnReadDataDone (some v) w (!c && r.isSome && g) cb)
            (.Async [.WaitCompletion r, .DeleteRequest r]) := by
        simp [ReadCallbackFunction, OnReadDataDoneRequest, andThen, hf]
      rw [e]
      simp only [emit, queueTasks_append, h]
      simp [queueTasks, hf]

/-- The method `ReadData` hands to the execution queue at most tasks on a null request (from a read
request the platform refused to create), and nothing when the manager is unreachable. -/
theorem ReadData_queueTasks (env : Env) (w : World) (OutBuffer : Ptr) (Offset BytesToRead : Int)
    (Priority : EAsyncIOPriorityAndFlags) (OnDone : FWwiseFileOperationDone) :
    ∃ l : List (List QueueOp),
      queueTasks (ReadData env w OutBuffer Offset BytesToRead Priority OnDone).trace =
        queueTasks w.trace ++ l ∧
      (∀ t ∈ l, t = [.WaitCompletion none, .DeleteRequest none]) ∧
      (env.FileCache = none → l = []) := by
  have issue : ∀ (fh : FileHandleId) (w1 : World), queueTasks w1.trace = queueTasks w.trace →
      ∃ l : List (List QueueOp),
        queueTasks (if BytesToRead > 0 then
          match env.ReadRequest with
          | some Request =>
            { emit w1 (.ReadRequest fh Offset BytesToRead Priority OutBuffer) with
              reads := (emit w1 (.ReadRequest fh Offset BytesToRead Priority OutBuffer)).reads ++
                [⟨Request, OnDone, BytesToRead, OutBuffer⟩] }
          | none => ReadCallbackFunction env.FileCache
              (emit w1 (.ReadRequest fh Offset BytesToRead Priority OutBuffer)) OnDone true none
              false
        else halt w1 .CheckFailed).trace = queueTasks w.trace ++ l ∧
        (∀ t ∈ l, t = [.WaitCompletion none, .DeleteRequest none]) ∧
        (env.FileCache = none → l = []) := by
    intro fh w1 ht
    by_cases hlen : BytesToRead > 0
    · simp only [hlen, if_true]
      cases env.ReadRequest with
      | some Request =>
        refine ⟨[], ?_, by simp, fun _ => rfl⟩
        simp only [emit, queueTasks_append, ht]
        simp [queueTasks]
      | none =>
        refine ⟨if (ReadCallbackFunction env.FileCache
            (emit w1 (.ReadRequest fh Offset BytesToRead Priority OutBuffer)) OnDone true none
            false).fault = false ∧ env.FileCache.isSome then
            [[.WaitCompletion none, .DeleteRequest none]] else [], ?_, ?_, ?_⟩
        · simp only []
          rw [ReadCallbackFunction_queueTasks]
          simp only [emit, queueTasks_append, ht]
          rw [show queueTasks [Effect.ReadRequest fh Offset BytesToRead Priority OutBuffer] = []
            from rfl, List.append_nil]
        · intro t ht'
          split at ht' <;> simp_all
        · intro hfc
          simp [hfc]
    · refine ⟨[], ?_, by simp, fun _ => rfl⟩
      simp only [hlen, if_false, halt, queueTasks_append, ht]
      simp [queueTasks]
  simp only [ReadData]
  cases hfh : w.handle.FileHandle with
  | none =>
    exact ⟨[], by simp [OnReadDataDone_queueTasks], by simp, fun _ => rfl⟩
  | some fh =>
    simp only []
    cases hpd : w.handle.PreloadData with
    | none => exact issue fh _ rfl
    | some pd =>
      simp only []
      by_cases ho : Offset = 0
      · by_cases hne : BytesToRead = w.handle.PreloadSize
        · refine ⟨[], ?_, by simp, fun _ => rfl⟩
          simp only [ho, hne, if_true, ne_eq, not_true_eq_false, if_false]
          rw [OnReadDataDone_queueTasks]
          simp only [queueTasks_append]
          simp [queueTasks]
        · simp only [ho, if_true, hne, ne_eq, not_false_eq_true]
          subst ho
          exact issue fh _ rfl
      · simp only [ho, if_false]
        exact issue fh _ rfl

/-- The same, relative to a world with the same queue tasks so far. -/
theorem ReadData_queueTasks_of_eq (env : Env) (w0 w : World) (OutBuffer : Ptr)
    (Offset BytesToRead : Int) (Priority : EAsyncIOPriorityAndFlags)
    (OnDone : FWwiseFileOperationDone) (h : queueTasks w.trace = queueTasks w0.trace) :
    ∃ l : List (List QueueOp),
      queueTasks (ReadData env w OutBuffer Offset BytesToRead Priority OnDone).trace =
        queueTasks w0.trace ++ l ∧
      (∀ t ∈ l, t = [.WaitCompletion none, .DeleteRequest none]) ∧
      (env.FileCache = none → l = []) := by
  rw [← h]
  exact ReadData_queueTasks env w OutBuffer Offset BytesToRead Priority OnDone

/-- The method `ProcessPreload` hands to the execution queue at most tasks on a null request, and
nothing when the manager is unreachable. -/
theorem ProcessPreload_queueTasks (env : Env) (w : World) :
    ∃ l : List (List QueueOp),
      queueTasks (ProcessPreload env w).trace = queueTasks w.trace ++ l ∧
      (∀ t ∈ l, t = [.WaitCompletion none, .DeleteRequest none]) ∧
      (env.FileCache = none → l = []) := by
  unfold ProcessPreload
  by_cases hP : w.handle.PreloadSize = 0
  · refine ⟨[], ?_, by simp, fun _ => rfl⟩
    simp only [hP, if_true]
    rw [CallDoneInitializationDone_queueTasks]
    simp
  · simp only [hP, if_false]
    split
    · cases hnew : env.NewArray with
      | none =>
        refine ⟨[], ?_, by simp, fun _ => rfl⟩
        simp only []
        rw [CallDoneInitializationDone_queueTasks]
        simp only [emit, queueTasks_append]
        simp [queueTasks]
      | some p =>
        simp only []
        apply ReadData_queueTasks_of_eq
        simp only [emit, queueTasks_append]
        simp [queueTasks]
    · refine ⟨[], ?_, by simp, fun _ => rfl⟩
      simp only [halt, queueTasks_append]
      simp [queueTasks]

/-- The calls of a closure in a trace made of two parts. -/
theorem callsOf_append (OnDone : Nat) (a b : List Effect) :
    callsOf OnDone (a ++ b) = callsOf OnDone a ++ callsOf OnDone b := by
  simp [callsOf]

/-- With an idle thread pool, the read callback of a caller's closure delivers to it, once,
whether the read was not cancelled, has a request object and is reported successful. -/
theorem ReadCallbackFunction_delivers (fc : Option FWwiseFileCache) (w : World) (OnDone : Nat)
    (bWasCancelled : Bool) (Request : Option RequestId) (GetReadResults : Bool)
    (hfault : w.fault = false) (hpool : w.pool = []) :
    callsOf OnDone
        (drainPool (ReadCallbackFunction fc w (.user OnDone) bWasCancelled Request
          GetReadResults)).trace =
      callsOf OnDone w.trace ++ [!bWasCancelled && Request.isSome && GetReadResults] := by
  rcases fc with _ | ⟨_ | _⟩ <;>
    simp [ReadCallbackFunction, OnReadDataDoneRequest, OnReadDataDone, CallDone, CallDoneMoves,
      invoke, emit, andThen, hfault, hpool, drainPool, runPoolTasks, runPoolTask,
      callsOf_append] <;>
    simp [callsOf]

/-- A `ReadData` of positive length that does not use the preload buffer, on a handle with a
file handle: either the platform keeps the request and the callback's captures, or the
callback runs at once with `(true, nullptr)`. -/
theorem ReadData_slow_eq (env : Env) (w : World) (fh : FileHandleId) (OutBuffer : Ptr)
    (Offset BytesToRead : Int) (Priority : EAsyncIOPriorityAndFlags)
    (OnDone : FWwiseFileOperationDone)
    (hfh : w.handle.FileHandle = some fh) (hlen : BytesToRead > 0)
    (hslow : ¬ (Offset = 0 ∧ w.handle.PreloadData.isSome ∧ BytesToRead = w.handle.PreloadSize)) :
    ∃ w1 : World, w1.trace = w.trace ++ [.ReadRequest fh Offset BytesToRead Priority OutBuffer] ∧
      w1.pool = w.pool ∧ w1.fault = w.fault ∧ w1.reads = w.reads ∧ w1.mem = w.mem ∧
      w1.handle.ReadDataInProcess = wrapInt32 (w.handle.ReadDataInProcess + 1) ∧
      ReadData env w OutBuffer Offset BytesToRead Priority OnDone =
        match env.ReadRequest with
        | some Request =>
          { w1 with reads := w1.reads ++ [⟨Request, OnDone, BytesToRead, OutBuffer⟩] }
        | none => ReadCallbackFunction env.FileCache w1 OnDone true none false := by
  refine ⟨emit { w with handle := { w.handle with
      ReadDataInProcess := wrapInt32 (w.handle.ReadDataInProcess + 1) } }
    (.ReadRequest fh Offset BytesToRead Priority OutBuffer), rfl, rfl, rfl, rfl, rfl, rfl, ?_⟩
  simp only [ReadData, hfh]
  cases hpd : w.handle.PreloadData with
  | none => simp [hlen]
  | some pd =>
    simp only [hpd, Option.isSome_some, true_and] at hslow
    by_cases ho : Offset = 0
    · have hne : BytesToRead ≠ w.handle.PreloadSize := fun h => hslow ⟨ho, h⟩
      simp [ho, hne, hlen]
    · simp [ho, hlen]

/-- Reduction to `int32` leaves a value within range unchanged. -/
theorem wrapInt32_of_range {x : Int} (h1 : -2 ^ 31 ≤ x) (h2 : x < 2 ^ 31) : wrapInt32 x = x := by
  unfold wrapInt32
  norm_num at h1 h2 ⊢
  omega

/-- The method `OnPreloadRequestDone` leaves the in-flight counter alone. -/
theorem OnPreloadRequestDone_counter (w : World) (b : Bool) (p : Ptr) :
    (OnPreloadRequestDone w b p).handle.ReadDataInProcess = w.handle.ReadDataInProcess := by
  unfold OnPreloadRequestDone
  cases b <;> cases h : w.handle.InitializationDone <;> cases hf : w.fault <;>
    simp [emit, halt, andThen, h, hf]

/-- Calling a completion closure leaves the in-flight counter alone. -/
theorem invoke_counter (w : World) (cb : Option FWwiseFileOperationDone) (b : Bool) :
    (invoke w cb b).handle.ReadDataInProcess = w.handle.ReadDataInProcess := by
  unfold invoke
  rcases cb with _ | ⟨id⟩ | ⟨p⟩
  · rfl
  · rfl
  · exact OnPreloadRequestDone_counter w b p

/-- The method `CallDone` leaves the in-flight counter alone. -/
theorem CallDone_counter (fc : Option FWwiseFileCache) (w : World) (b : Bool)
    (cb : Option FWwiseFileOperationDone) :
    (CallDone fc w b cb).handle.ReadDataInProcess = w.handle.ReadDataInProcess := by
  unfold CallDone
  split
  · rfl
  · exact invoke_counter w cb b

/-- Reporting through `InitializationDone` changes neither the in-flight counter nor the
requests in flight. -/
theorem CallDoneInitializationDone_counter (fc : Option FWwiseFileCache) (w : World)
    (b : Bool) :
    (deleteInitializationStat (CallDoneInitializationDone fc w b)).handle.ReadDataInProcess =
        w.handle.ReadDataInProcess ∧
      (deleteInitializationStat (CallDoneInitializationDone fc w b)).reads = w.reads := by
  have h := CallDone_counter fc w b (w.handle.InitializationDone.map .user)
  have hq := (CallDone_quiet fc w b (w.handle.InitializationDone.map .user)).reads
  unfold CallDoneInitializationDone deleteInitializationStat
  split <;> exact ⟨h, hq⟩

/-- The method `OnReadDataDone` takes one off the in-flight counter. -/
theorem OnReadDataDone_counter (fc : Option FWwiseFileCache) (w : World) (b : Bool)
    (cb : FWwiseFileOperationDone) :
    (OnReadDataDone fc w b cb).handle.ReadDataInProcess =
      wrapInt32 (w.handle.ReadDataInProcess - 1) := by
  unfold OnReadDataDone
  exact CallDone_counter fc _ b (some cb)

/-- The read callback takes one off the in-flight counter, whatever the completion was. -/
theorem ReadCallbackFunction_counter (fc : Option FWwiseFileCache) (w : World)
    (cb : FWwiseFileOperationDone) (c : Bool) (r : Option RequestId) (g : Bool) :
    (ReadCallbackFunction fc w cb c r g).handle.ReadDataInProcess =
      wrapInt32 (w.handle.ReadDataInProcess - 1) := by
  have h := OnReadDataDone_counter fc w (!c && r.isSome && g) cb
  simp only [ReadCallbackFunction, OnReadDataDoneRequest, andThen]
  split
  · exact h
  · cases fc <;> exact h

/-- The completion of a read request in flight takes one off the counter and takes the
request out of flight, whatever the completion reports. -/
theorem ReadRequestDone_in_flight (fc : Option FWwiseFileCache) (w : World)
    (Request : RequestId) (bWasCancelled GetReadResults : Bool) (data : List Nat)
    (hf : w.fault = false)
    (hr : (w.reads.find? (fun r => r.Request == Request)).isSome) :
    (ReadRequestDone fc w Request bWasCancelled GetReadResults data).handle.ReadDataInProcess =
        wrapInt32 (w.handle.ReadDataInProcess - 1) ∧
      (ReadRequestDone fc w Request bWasCancelled GetReadResults data).reads.length + 1 =
        w.reads.length := by
  obtain ⟨r, hr⟩ := Option.isSome_iff_exists.mp hr
  have e : ReadRequestDone fc w Request bWasCancelled GetReadResults data =
      ReadCallbackFunction fc
        { w with
          reads := w.reads.eraseP (fun r => r.Request == Request),
          mem := Function.update w.mem r.OutBuffer
            (data ++ (w.mem r.OutBuffer).drop data.length) }
        r.OnDone bWasCancelled (some Request) GetReadResults := by
    simp [ReadRequestDone, andThen, hf, hr]
  rw [e, ReadCallbackFunction_counter, (ReadCallbackFunction_quiet _ _ _ _ _ _).reads]
  refine ⟨rfl, ?_⟩
  have hmem : r ∈ w.reads := List.mem_of_find?_eq_some hr
  have hp : (fun r : PendingRead => r.Request == Request) r = true :=
    List.find?_some (p := fun r : PendingRead => r.Request == Request) hr
  show (w.reads.eraseP (fun r => r.Request == Request)).length + 1 = w.reads.length
  rw [List.length_eraseP_of_mem hmem hp]
  have : 0 < w.reads.length := List.length_pos_of_mem hmem
  omega

/-- Nothing runs once execution has stopped. -/
theorem Event.run_of_fault (w : World) (e : Event) (hf : w.fault = true) : e.run w = w := by
  cases e <;> simp [Event.run, andThen, hf, Wwise.ReadRequestDone, Wwise.runPoolTask]

/-- Once a close was requested, an action keeps the queue closing or closed and moves tasks
only from the queue to the tasks run. -/
theorem QueueAction.run_closing (q : FWwiseExecutionQueue) (a : QueueAction)
    (h : q.IsBeingClosed = true) :
    (a.run q).IsBeingClosed = true ∧
      (a.run q).executed ++ (a.run q).OpQueue = q.executed ++ q.OpQueue ∧
      (q.IsClosed = true → a.run q = q) := by
  obtain ⟨s, l, ex⟩ := q
  cases s <;> cases a <;> cases l <;>
    simp_all [QueueAction.run, FWwiseExecutionQueue.Async, FWwiseExecutionQueue.Close,
      FWwiseExecutionQueue.Work, FWwiseExecutionQueue.IsBeingClosed,
      FWwiseExecutionQueue.IsClosed]

/-- Once a close was requested, a sequence of actions keeps the queue closing or closed and
moves tasks only from the queue to the tasks run. -/
theorem runActions_closing (actions : List QueueAction) :
    ∀ q : FWwiseExecutionQueue, q.IsBeingClosed = true →
      (runActions q actions).IsBeingClosed = true ∧
        (runActions q actions).executed ++ (runActions q actions).OpQueue =
          q.executed ++ q.OpQueue ∧
        (q.IsClosed = true → runActions q actions = q) := by
  induction actions with
  | nil =>
    intro q h
    exact ⟨h, rfl, fun _ => rfl⟩
  | cons a rest ih =>
    intro q h
    obtain ⟨h1, h2, h3⟩ := QueueAction.run_closing q a h
    obtain ⟨g1, g2, g3⟩ := ih (a.run q) h1
    refine ⟨g1, g2.trans h2, ?_⟩
    intro hc
    have e : a.run q = q := h3 hc
    show runActions (a.run q) rest = q
    rw [e] at g3 ⊢
    exact g3 hc

/-- A close request leaves the queue closing or closed, with the same tasks. -/
theorem Close_closing (q : FWwiseExecutionQueue) :
    q.Close.IsBeingClosed = true ∧ q.Close.executed = q.executed ∧ q.Close.OpQueue = q.OpQueue := by
  obtain ⟨s, l, ex⟩ := q
  cases s <;>
    simp [FWwiseExecutionQueue.Close, FWwiseExecutionQueue.IsBeingClosed]

/-- A handle whose platform open returned null: the caller's closure got `false` once and
the handle holds no native file handle. -/
theorem open_null_world (env0 : Env) (P G : Int) (prio : EAsyncIOPriorityAndFlags)
    (mem : Ptr → List Nat) (cb : Nat) (hopen : env0.OpenAsyncRead = none) :
    callsOf cb (drainPool (Open env0 (World.init P prio G mem) cb)).trace = [false] ∧
    (drainPool (Open env0 (World.init P prio G mem) cb)).handle.FileHandle = none := by
  rcases hfc : env0.FileCache with _ | ⟨_ | _⟩ <;>
    simp [Open, World.init, FWwiseFileCacheHandle.new, hopen, hfc, deleteInitializationStat,
      CallDoneInitializationDone, CallDone, CallDoneMoves, invoke, emit, drainPool, runPoolTasks,
      runPoolTask, andThen, callsOf]

/-- A handle whose size request could not be created: the caller's closure got `false` once,
the handle keeps its native file handle and has no preload buffer. -/
theorem size_request_refused_world (env0 : Env) (P G : Int) (prio : EAsyncIOPriorityAndFlags)
    (mem : Ptr → List Nat) (cb : Nat) (fh : FileHandleId)
    (hopen : env0.OpenAsyncRead = some fh) (hsz : env0.SizeRequest = none) :
    callsOf cb (drainPool (Open env0 (World.init P prio G mem) cb)).trace = [false] ∧
    (drainPool (Open env0 (World.init P prio G mem) cb)).handle.FileHandle = some fh ∧
    (drainPool (Open env0 (World.init P prio G mem) cb)).handle.PreloadData = none := by
  rcases hfc : env0.FileCache with _ | ⟨_ | _⟩ <;>
    simp [Open, World.init, FWwiseFileCacheHandle.new, hopen, hsz, hfc, deleteInitializationStat,
      CallDoneInitializationDone, CallDone, CallDoneMoves, invoke, emit, drainPool, runPoolTasks,
      runPoolTask, andThen, callsOf]

/-- A handle whose preload buffer could not be allocated: the caller's closure got `false`
once, the handle keeps its native file handle and has no preload buffer. -/
theorem allocation_failed_world (env0 env1 : Env) (P G F : Int)
    (prio : EAsyncIOPriorityAndFlags) (mem : Ptr → List Nat) (cb : Nat) (bc : Bool)
    (rq : RequestId) (fh : FileHandleId)
    (hopen : env0.OpenAsyncRead = some fh) (hsz : env0.SizeRequest = some rq)
    (hP : P ≠ 0) (hE : 0 < effectivePreloadSize P G F) (hnew : env1.NewArray = none) :
    callsOf cb (drainPool (sizeResolved env0 env1 P G prio mem cb bc rq F)).trace = [false] ∧
    (drainPool (sizeResolved env0 env1 P G prio mem cb bc rq F)).handle.FileHandle = some fh ∧
    (drainPool (sizeResolved env0 env1 P G prio mem cb bc rq F)).handle.PreloadData = none := by
  have hF : F ≠ 0 := by
    have := effectivePreloadSize_le P G F
    omega
  rcases hfc : env1.FileCache with _ | ⟨_ | _⟩ <;>
    simp [sizeResolved, OnSizeRequestDone, setFileSize, Open, World.init,
      FWwiseFileCacheHandle.new, hopen, hsz, emit, andThen, ProcessPreload, hP, hE, hnew, hF, hfc,
      deleteInitializationStat, CallDoneInitializationDone, CallDone, CallDoneMoves, invoke,
      drainPool, runPoolTasks, runPoolTask, callsOf]

/-- Reduction to `int32` absorbs an inner reduction. -/
theorem wrapInt32_add_wrap (x y : Int) : wrapInt32 (wrapInt32 x + y) = wrapInt32 (x + y) := by
  unfold wrapInt32
  norm_num
  omega

/-- A `ReadData` on a handle without a native file handle completes within the call: the
counter goes up and down again, nothing is put in flight. -/
theorem ReadData_counter_no_handle (env : Env) (w : World) (OutBuffer : Ptr)
    (Offset BytesToRead : Int) (Priority : EAsyncIOPriorityAndFlags)
    (OnDone : FWwiseFileOperationDone) (hfh : w.handle.FileHandle = none) :
    (ReadData env w OutBuffer Offset BytesToRead Priority OnDone).handle.ReadDataInProcess =
        wrapInt32 (wrapInt32 (w.handle.ReadDataInProcess + 1) - 1) ∧
      (ReadData env w OutBuffer Offset BytesToRead Priority OnDone).reads = w.reads := by
  simp only [ReadData, hfh]
  exact ⟨OnReadDataDone_counter _ _ _ _, (OnReadDataDone_quiet _ _ _ _).reads⟩

/-- A `ReadData` served from the preload buffer completes within the call: the counter goes
up and down again, nothing is put in flight. -/
theorem ReadData_counter_fast (env : Env) (w : World) (fh : FileHandleId) (p : Ptr)
    (OutBuffer : Ptr) (Priority : EAsyncIOPriorityAndFlags) (OnDone : FWwiseFileOperationDone)
    (hfh : w.handle.FileHandle = some fh) (hpd : w.handle.PreloadData = some p) :
    (ReadData env w OutBuffer 0 w.handle.PreloadSize Priority OnDone).handle.ReadDataInProcess =
        wrapInt32 (wrapInt32 (w.handle.ReadDataInProcess + 1) - 1) ∧
      (ReadData env w OutBuffer 0 w.handle.PreloadSize Priority OnDone).reads = w.reads := by
  simp only [ReadData, hfh, hpd, if_true, ne_eq, not_true_eq_false, if_false]
  exact ⟨OnReadDataDone_counter _ _ _ _, (OnReadDataDone_quiet _ _ _ _).reads⟩

/-- A `ReadData` of positive length handed to the platform: with a request created the
counter went up and the request is in flight; with the request refused the counter went up
and down again and nothing is in flight. -/
theorem ReadData_counter_platform (env : Env) (w : World) (fh : FileHandleId)
    (OutBuffer : Ptr) (Offset BytesToRead : Int) (Priority : EAsyncIOPriorityAndFlags)
    (OnDone : FWwiseFileOperationDone)
    (hfh : w.handle.FileHandle = some fh) (hlen : BytesToRead > 0)
    (hslow : ¬ (Offset = 0 ∧ w.handle.PreloadData.isSome ∧ BytesToRead = w.handle.PreloadSize)) :
    (∀ Request : RequestId, env.ReadRequest = some Request →
      (ReadData env w OutBuffer Offset BytesToRead Priority OnDone).handle.ReadDataInProcess =
          wrapInt32 (w.handle.ReadDataInProcess + 1) ∧
        (ReadData env w OutBuffer Offset BytesToRead Priority OnDone).reads =
          w.reads ++ [⟨Request, OnDone, BytesToRead, OutBuffer⟩]) ∧
    (env.ReadRequest = none →
      (ReadData env w OutBuffer Offset BytesToRead Priority OnDone).handle.ReadDataInProcess =
          wrapInt32 (wrapInt32 (w.handle.ReadDataInProcess + 1) - 1) ∧
        (ReadData env w OutBuffer Offset BytesToRead Priority OnDone).reads = w.reads) := by
  obtain ⟨w1, _, _, _, hr, _, hc, heq⟩ := ReadData_slow_eq env w fh OutBuffer Offset
    BytesToRead Priority OnDone hfh hlen hslow
  constructor
  · intro Request hrr
    rw [heq, hrr]
    exact ⟨hc, by simp [hr]⟩
  · intro hrr
    rw [heq, hrr]
    simp only []
    rw [ReadCallbackFunction_counter, (ReadCallbackFunction_quiet _ _ _ _ _ _).reads, hc]
    exact ⟨rfl, hr⟩

/-- A `ReadData` whose length is not positive, on a path that reaches the length check,
stops execution. -/
theorem ReadData_check_fails (env : Env) (w : World) (fh : FileHandleId)
    (OutBuffer : Ptr) (Offset BytesToRead : Int) (Priority : EAsyncIOPriorityAndFlags)
    (OnDone : FWwiseFileOperationDone)
    (hfh : w.handle.FileHandle = some fh) (hlen : ¬ BytesToRead > 0)
    (hslow : ¬ (Offset = 0 ∧ w.handle.PreloadData.isSome ∧ BytesToRead = w.handle.PreloadSize)) :
    (ReadData env w OutBuffer Offset BytesToRead Priority OnDone).fault = true := by
  simp only [ReadData, hfh]
  cases hpd : w.handle.PreloadData with
  | none => simp [hlen, halt]
  | some pd =>
    simp only [hpd, Option.isSome_some, true_and] at hslow
    by_cases ho : Offset = 0
    · have hne : BytesToRead ≠ w.handle.PreloadSize := fun h => hslow ⟨ho, h⟩
      simp [ho, hne, hlen, halt]
    · simp [ho, hlen, halt]

/-- The method `ReadData` puts in flight, and counts, what the specification side says. -/
theorem ReadData_adds (env : Env) (w : World) (OutBuffer : Ptr) (Offset BytesToRead : Int)
    (Priority : EAsyncIOPriorityAndFlags) (OnDone : FWwiseFileOperationDone) :
    Adds w (ReadData env w OutBuffer Offset BytesToRead Priority OnDone)
      (leftInFlight env w Offset BytesToRead) := by
  have sync : ∀ r : World,
      r.handle.ReadDataInProcess = wrapInt32 (wrapInt32 (w.handle.ReadDataInProcess + 1) - 1) ∧
        r.reads = w.reads → Adds w r [] := by
    intro r h
    right
    refine ⟨by simp [h.2], ?_⟩
    intro n hn
    rw [h.1, hn]
    simp only [List.length_nil]
    unfold wrapInt32
    norm_num
    omega
  cases hfh : w.handle.FileHandle with
  | none =>
    have e : leftInFlight env w Offset BytesToRead = [] := by
      simp [leftInFlight, goesToPlatform, hfh]
    rw [e]
    exact sync _ (ReadData_counter_no_handle env w OutBuffer Offset BytesToRead Priority OnDone
      hfh)
  | some fh =>
    by_cases hfast : Offset = 0 ∧ w.handle.PreloadData.isSome ∧
        BytesToRead = w.handle.PreloadSize
    · obtain ⟨ho, hpd, hb⟩ := hfast
      obtain ⟨p, hp⟩ := Option.isSome_iff_exists.mp hpd
      have e : leftInFlight env w Offset BytesToRead = [] := by
        simp [leftInFlight, goesToPlatform, hfh, ho, hp, hb]
      rw [e, ho, hb]
      exact sync _ (ReadData_counter_fast env w fh p OutBuffer Priority OnDone hfh hp)
    · by_cases hlen : BytesToRead > 0
      · have hgo : goesToPlatform w Offset BytesToRead = true := by
          simp only [goesToPlatform, hfh, Option.isSome_some, Bool.true_and, Bool.and_eq_true,
            Bool.not_eq_true', decide_eq_true_eq]
          refine ⟨?_, hlen⟩
          by_contra hc
          apply hfast
          simp only [Bool.not_eq_false, Bool.and_eq_true, decide_eq_true_eq] at hc
          exact ⟨hc.1.1, hc.1.2, hc.2⟩
        obtain ⟨h1, h2⟩ := ReadData_counter_platform env w fh OutBuffer Offset BytesToRead
          Priority OnDone hfh hlen hfast
        cases hrr : env.ReadRequest with
        | none =>
          have e : leftInFlight env w Offset BytesToRead = [] := by
            simp [leftInFlight, hrr]
          rw [e]
          exact sync _ (h2 hrr)
        | some Request =>
          have e : leftInFlight env w Offset BytesToRead = [Request] := by
            simp [leftInFlight, hgo, hrr]
          rw [e]
          right
          obtain ⟨hc, hr⟩ := h1 Request hrr
          refine ⟨by simp [hr], ?_⟩
          intro n hn
          rw [hc, hn, wrapInt32_add_wrap]
          simp
      · left
        exact ReadData_check_fails env w fh OutBuffer Offset BytesToRead Priority OnDone hfh hlen
          hfast

/-- A step that changes neither the counter nor the requests in flight adds nothing. -/
theorem Adds.nothing {w w' : World}
    (hc : w'.handle.ReadDataInProcess = w.handle.ReadDataInProcess) (hr : w'.reads = w.reads) :
    Adds w w' [] := by
  right
  refine ⟨by simp [hr], ?_⟩
  intro n hn
  rw [hc, hn]
  simp

/-- Adding seen from a world with the same counter and requests in flight. -/
theorem Adds.of_eq {w0 w w' : World} {added : List RequestId} (h : Adds w w' added)
    (hc : w.handle.ReadDataInProcess = w0.handle.ReadDataInProcess) (hr : w.reads = w0.reads) :
    Adds w0 w' added := by
  unfold Adds at h ⊢
  rw [hc, hr] at h
  exact h

/-- Adding followed by bookkeeping that leaves counter and requests alone. -/
theorem Adds.then_same {w w' w'' : World} {added : List RequestId} (h : Adds w w' added)
    (hf : w'.fault = true → w''.fault = true)
    (hc : w''.handle.ReadDataInProcess = w'.handle.ReadDataInProcess)
    (hr : w''.reads = w'.reads) : Adds w w'' added := by
  unfold Adds at h ⊢
  rw [hc, hr]
  rcases h with h | h
  · exact Or.inl (hf h)
  · exact Or.inr h

/-- The method `ReadData` run in a world with the counter and requests of another one. -/
theorem ReadData_adds_of_eq (env : Env) (w0 w : World) (OutBuffer : Ptr)
    (Offset BytesToRead : Int) (Priority : EAsyncIOPriorityAndFlags)
    (OnDone : FWwiseFileOperationDone) (added : List RequestId)
    (hc : w.handle.ReadDataInProcess = w0.handle.ReadDataInProcess) (hr : w.reads = w0.reads)
    (hl : leftInFlight env w Offset BytesToRead = added) :
    Adds w0 (ReadData env w OutBuffer Offset BytesToRead Priority OnDone) added := by
  rw [← hl]
  exact Adds.of_eq (ReadData_adds env w OutBuffer Offset BytesToRead Priority OnDone) hc hr

/-- The method `ProcessPreload` puts in flight, and counts, what the specification side says
of the preload decision. -/
theorem ProcessPreload_adds (env : Env) (w : World) :
    Adds w (ProcessPreload env w) (preloadLeftInFlight env w w.handle.FileSize) := by
  unfold ProcessPreload
  by_cases hP : w.handle.PreloadSize = 0
  · have e : preloadLeftInFlight env w w.handle.FileSize = [] := by
      simp [preloadLeftInFlight, hP]
    rw [e]
    simp only [hP, if_true]
    exact Adds.nothing (CallDoneInitializationDone_counter _ _ _).1
      (CallDoneInitializationDone_counter _ _ _).2
  · simp only [hP, if_false]
    by_cases hE : effectivePreloadSize w.handle.PreloadSize w.handle.Granularity
        w.handle.FileSize > 0
    · simp only [hE, if_true]
      cases hnew : env.NewArray with
      | none =>
        have e : preloadLeftInFlight env w w.handle.FileSize = [] := by
          simp [preloadLeftInFlight, hnew]
        rw [e]
        simp only []
        exact Adds.nothing (CallDoneInitializationDone_counter _ _ _).1
          (CallDoneInitializationDone_counter _ _ _).2
      | some p =>
        simp only []
        refine ReadData_adds_of_eq env w _ _ _ _ _ _ _ rfl rfl ?_
        have hE' : 0 < effectivePreloadSize w.handle.PreloadSize w.handle.Granularity
            w.handle.FileSize := hE
        cases hfh : w.handle.FileHandle <;> cases hpd : w.handle.PreloadData <;>
          simp [leftInFlight, goesToPlatform, preloadLeftInFlight, emit, hP, hE', hnew, hfh, hpd]
    · have hE' : ¬ 0 < effectivePreloadSize w.handle.PreloadSize w.handle.Granularity
          w.handle.FileSize := hE
      have e : preloadLeftInFlight env w w.handle.FileSize = [] := by
        simp [preloadLeftInFlight, hE']
      rw [e]
      simp only [hE, if_false]
      exact Or.inl rfl

/-- The method `OnSizeRequestDone` puts in flight, and counts, what the specification side
says of the preload decision. -/
theorem OnSizeRequestDone_adds (env : Env) (w : World) (bc : Bool) (Request : RequestId)
    (F : Int) : Adds w (OnSizeRequestDone env w bc Request F) (preloadLeftInFlight env w F) := by
  have h : Adds w (ProcessPreload env (setFileSize w F)) (preloadLeftInFlight env w F) :=
    Adds.of_eq (ProcessPreload_adds env (setFileSize w F)) rfl rfl
  by_cases hf : (ProcessPreload env (setFileSize w F)).fault = true
  · have e : OnSizeRequestDone env w bc Request F = ProcessPreload env (setFileSize w F) := by
      simp [OnSizeRequestDone, andThen, hf]
    rw [e]
    exact h
  · simp only [OnSizeRequestDone, andThen, hf, Bool.false_eq_true, if_false]
    split
    · refine h.then_same (fun h' => absurd h' hf) ?_ ?_
      · rw [(CallDoneInitializationDone_counter _ _ _).1]
        cases env.FileCache <;> rfl
      · rw [(CallDoneInitializationDone_counter _ _ _).2]
        cases env.FileCache <;> rfl
    · refine h.then_same (fun h' => absurd h' hf) ?_ ?_
      · cases env.FileCache <;> rfl
      · cases env.FileCache <;> rfl

/-- The method `Open` puts nothing in flight and leaves the counter alone. -/
theorem Open_adds (env : Env) (w : World) (OnDone : Nat) : Adds w (Open env w OnDone) [] := by
  unfold Open
  split
  · exact Or.inl rfl
  · split
    · exact Or.inl rfl
    · cases env.OpenAsyncRead with
      | none =>
        simp only []
        exact Adds.nothing (CallDoneInitializationDone_counter _ _ _).1
          (CallDoneInitializationDone_counter _ _ _).2
      | some fh =>
        simp only []
        cases env.SizeRequest with
        | none =>
          simp only []
          exact Adds.nothing (CallDoneInitializationDone_counter _ _ _).1
            (CallDoneInitializationDone_counter _ _ _).2
        | some r => exact Adds.nothing rfl rfl

/-- The thread pool running a task puts nothing in flight and leaves the counter alone. -/
theorem runPoolTask_adds (w : World) : Adds w (runPoolTask w) [] := by
  cases hf : w.fault with
  | true =>
    have e : runPoolTask w = w := by simp [runPoolTask, andThen, hf]
    rw [e]
    exact Adds.nothing rfl rfl
  | false =>
    cases hp : w.pool with
    | nil =>
      have e : runPoolTask w = w := by simp [runPoolTask, andThen, hf, hp]
      rw [e]
      exact Adds.nothing rfl rfl
    | cons t rest =>
      have e : runPoolTask w = invoke { w with pool := rest } t.1 t.2 := by
        simp [runPoolTask, andThen, hf, hp]
      rw [e]
      exact Adds.nothing (invoke_counter _ _ _) (invoke_quiet _ _ _).reads

/-- Adding keeps the world in agreement with the history. -/
theorem Tracks.adds {w w' : World} {pending added : List RequestId} (ht : Tracks w pending)
    (hw : w.fault = false) (ha : Adds w w' added) : Tracks w' (pending ++ added) := by
  rcases ht with hf | ⟨hr, hc⟩
  · rw [hw] at hf
    exact absurd hf (by simp)
  · rcases ha with hf | ⟨hr', hc'⟩
    · exact Or.inl hf
    · right
      refine ⟨by rw [hr', hr], ?_⟩
      rw [hc' _ hc]
      simp

/-- Taking a request identifier out of the platform's list, seen on the identifiers. -/
theorem map_Request_eraseP (l : List PendingRead) (Request : RequestId) :
    (l.eraseP (fun r => r.Request == Request)).map (fun r => r.Request) =
      (l.map (fun r => r.Request)).erase Request := by
  induction l with
  | nil => rfl
  | cons a rest ih =>
    by_cases h : a.Request = Request
    · simp [List.eraseP_cons, List.erase_cons, h]
    · have h' : (a.Request == Request) = false := by simpa using h
      simp [List.eraseP_cons, List.erase_cons, h', ih]

/-- The completion of a read request keeps the world in agreement with the history: the
request leaves the platform's list and the counter goes down by one; a completion for a
request not in flight changes nothing. -/
theorem Tracks.completes {w : World} {pending : List RequestId} (ht : Tracks w pending)
    (fc : Option FWwiseFileCache) (Request : RequestId) (bWasCancelled GetReadResults : Bool)
    (data : List Nat) :
    Tracks (ReadRequestDone fc w Request bWasCancelled GetReadResults data)
      (pending.erase Request) := by
  rcases ht with hf | ⟨hr, hc⟩
  · exact Or.inl (by simp [ReadRequestDone, andThen, hf])
  · cases hf : w.fault with
    | true => exact Or.inl (by simp [ReadRequestDone, andThen, hf])
    | false =>
      cases hfind : w.reads.find? (fun r => r.Request == Request) with
      | none =>
        have e : ReadRequestDone fc w Request bWasCancelled GetReadResults data = w := by
          simp [ReadRequestDone, andThen, hf, hfind]
        have hnot : Request ∉ pending := by
          rw [← hr]
          intro hmem
          obtain ⟨r, hr1, hr2⟩ := List.mem_map.mp hmem
          have hall : ∀ r ∈ w.reads, ¬ (r.Request == Request) = true := by
            simpa using hfind
          exact hall r hr1 (by simp [hr2])
        rw [e, List.erase_of_not_mem hnot]
        exact Or.inr ⟨hr, hc⟩
      | some r =>
        have hmem : r ∈ w.reads := List.mem_of_find?_eq_some hfind
        have hp : (fun r : PendingRead => r.Request == Request) r = true :=
          List.find?_some (p := fun r : PendingRead => r.Request == Request) hfind
        have hin : Request ∈ pending := by
          rw [← hr]
          exact List.mem_map.mpr ⟨r, hmem, by simpa using hp⟩
        obtain ⟨h1, _⟩ := ReadRequestDone_in_flight fc w Request bWasCancelled GetReadResults
          data hf (by rw [hfind]; rfl)
        have e : ReadRequestDone fc w Request bWasCancelled GetReadResults data =
            ReadCallbackFunction fc
              { w with
                reads := w.reads.eraseP (fun r => r.Request == Request),
                mem := Function.update w.mem r.OutBuffer
                  (data ++ (w.mem r.OutBuffer).drop data.length) }
              r.OnDone bWasCancelled (some Request) GetReadResults := by
          simp [ReadRequestDone, andThen, hf, hfind]
        right
        constructor
        · rw [e, (ReadCallbackFunction_quiet _ _ _ _ _ _).reads]
          show (w.reads.eraseP (fun r => r.Request == Request)).map (fun r => r.Request) = _
          rw [map_Request_eraseP, hr]
        · rw [h1, hc, List.length_erase_of_mem hin]
          have hpos : 0 < pending.length := List.length_pos_of_mem hin
          have hcast : ((pending.length - 1 : Nat) : Int) = (pending.length : Int) - 1 := by
            omega
          rw [hcast]
          have := wrapInt32_add_wrap (pending.length : Int) (-1)
          simpa [sub_eq_add_neg] using this

/-- Every event keeps the world in agreement with the history. -/
theorem Event.run_tracks (w : World) (pending : List RequestId) (e : Event)
    (ht : Tracks w pending) :
    Tracks (e.run w) (if w.fault then pending else e.inFlight w pending) := by
  cases hf : w.fault with
  | true =>
    rw [Event.run_of_fault w e hf]
    simpa [hf] using ht
  | false =>
    simp only [Bool.false_eq_true, if_false]
    cases e with
    | Open env OnDone =>
      have h := Tracks.adds ht hf (Open_adds env w OnDone)
      simpa [Event.run, Event.inFlight, andThen, hf] using h
    | OnSizeRequestDone env bc Request F =>
      have h := Tracks.adds ht hf (OnSizeRequestDone_adds env w bc Request F)
      simpa [Event.run, Event.inFlight, andThen, hf] using h
    | ReadData env OutBuffer Offset BytesToRead Priority OnDone =>
      have h := Tracks.adds ht hf
        (ReadData_adds env w OutBuffer Offset BytesToRead Priority (.user OnDone))
      simpa [Event.run, Event.inFlight, andThen, hf] using h
    | ReadRequestDone fc Request bc g data =>
      exact Tracks.completes ht fc Request bc g data
    | runPoolTask =>
      have h := Tracks.adds ht hf (runPoolTask_adds w)
      simpa [Event.run, Event.inFlight] using h

/-- After any sequence of events the world agrees with the history. -/
theorem runEvents_tracks (events : List Event) :
    ∀ (w : World) (pending : List RequestId), Tracks w pending →
      Tracks (runEvents w events) (inFlightAfter w pending events) := by
  induction events with
  | nil =>
    intro w pending ht
    exact ht
  | cons e es ih =>
    intro w pending ht
    exact ih (e.run w) _ (Event.run_tracks w pending e ht)

/-! ### The claims -/

/-- C1: with a resolved file size of 0, `OnSizeRequestDone` has already run `ProcessPreload`
when it tests the size. With no preload requested and the manager reachable, the
open-completion closure receives `true` and never `false` (the later report of failure calls
the moved-from closure); with a preload of 4096 requested, the `PreloadSize > 0` assertion is
reached and fails, and the closure is never called. -/
theorem C1_zero_size_runs_preload_decision :
    callsOf 5 (sized managerReachable 0 512 0).trace = [true] ∧
    (sized managerReachable 0 512 0).trace =
      [.OpenAsyncRead, .SizeRequest 7, .AsyncPool (some (.user 5)) true,
        .Async [.WaitCompletion (some 1), .DeleteRequest (some 1)], .AsyncPool none false,
        .Call 5 true, .CallUnbound false] ∧
    (sized managerReachable 4096 512 0).trace = [.OpenAsyncRead, .SizeRequest 7, .CheckFailed] ∧
    callsOf 5 (sized managerReachable 4096 512 0).trace = [] := by
  decide

/-- C2: with no preload requested, a resolved file size of 0 and the manager unreachable, the
open-completion closure runs twice, first with `true` (from `ProcessPreload`) and then with
`false` (from the zero-size test of `OnSizeRequestDone`); with a preload of 4096 requested
and a resolved file size of 0 it never runs, execution stopping at the failed assertion. -/
theorem C2_open_callback_runs_twice :
    (sized managerUnreachable 0 512 0).trace =
      [.OpenAsyncRead, .SizeRequest 7, .Call 5 true, .Call 5 false] ∧
    (callsOf 5 (sized managerUnreachable 0 512 0).trace).length = 2 ∧
    (sized managerUnreachable 0 512 0).fault = false ∧
    (callsOf 5 (sized managerReachable 4096 512 0).trace).length = 0 ∧
    (sized managerReachable 4096 512 0).pool = [] ∧
    (sized managerReachable 4096 512 0).fault = true := by
  decide

/-- C3: destroying a handle while the manager is unreachable deletes the native file handle
synchronously and then evaluates `FileCache->ExecutionQueue` on the null manager, which stops
execution; with the manager reachable there is no synchronous delete and exactly one task,
deleting the native file handle, goes to the execution queue. -/
theorem C3_destructor_dereferences_null_manager (w : World) (fc : FWwiseFileCache) :
    (destructor none w).trace =
      w.trace ++ [.DeleteArray w.handle.PreloadData, .DeleteFileHandle w.handle.FileHandle,
        .NullFileCacheDeref] ∧
    (destructor none w).fault = true ∧
    (destructor (some fc) w).trace =
      w.trace ++ [.DeleteArray w.handle.PreloadData,
        .AsyncWait [.DeleteFileHandle w.handle.FileHandle]] ∧
    (destructor (some fc) w).fault = w.fault := by
  simp [destructor, emit, halt]

/-- C4: for a requested preload size `P > 0`, a resolved file size `F > 0` and any granularity
`G`, `ProcessPreload` sets `PreloadSize` to `min R F`, where `R` is the least multiple of `G`
that is at least `P` when `G > 1` and `R = P` otherwise (`R` within `int64`), and the one
platform read it issues is for offset 0 and that many bytes, into the buffer just allocated;
(4096, 512, 10000) gives 4096 and (4096, 512, 3000) gives 3000. -/
theorem C4_effective_preload_size (env : Env) (w : World) (fh : FileHandleId) (p : Ptr)
    (P G F R : Int)
    (hfh : w.handle.FileHandle = some fh) (hpd : w.handle.PreloadData = none)
    (hP : w.handle.PreloadSize = P) (hG : w.handle.Granularity = G)
    (hF : w.handle.FileSize = F) (hnew : env.NewArray = some p)
    (hPpos : 0 < P) (hFpos : 0 < F)
    (hR : if G > 1 then G ∣ R ∧ P ≤ R ∧ ∀ m : Int, G ∣ m → P ≤ m → R ≤ m else R = P)
    (hRr : R < 2 ^ 63) :
    (ProcessPreload env w).handle.PreloadSize = min R F ∧
    (ProcessPreload env w).trace.filter Effect.isReadRequest =
      w.trace.filter Effect.isReadRequest ++
        [.ReadRequest fh 0 (min R F) w.handle.PreloadPriority p] ∧
    effectivePreloadSize 4096 512 10000 = 4096 ∧
    effectivePreloadSize 4096 512 3000 = 3000 := by
  have hE := effectivePreloadSize_eq_min (F := F) hPpos hR hRr
  have hRpos : 0 < R := by
    by_cases h : G > 1
    · simp only [h, if_true] at hR; omega
    · simp only [h, if_false] at hR; omega
  have hEpos : 0 < min R F := lt_min hRpos hFpos
  have hP0 : P ≠ 0 := by omega
  refine ⟨?_, ?_, by decide, by decide⟩
  · simp only [ProcessPreload, hP, hG, hF, hP0, hE, hEpos, hnew, if_true, if_false, emit,
      ReadData, hfh, hpd]
    cases env.ReadRequest with
    | some Request => rfl
    | none => exact (ReadCallbackFunction_quiet _ _ _ _ _ _).PreloadSize
  · simp only [ProcessPreload, hP, hG, hF, hP0, hE, hEpos, hnew, if_true, if_false, emit,
      ReadData, hfh, hpd]
    cases env.ReadRequest with
    | some Request => simp [Effect.isReadRequest]
    | none =>
      rw [(ReadCallbackFunction_quiet _ _ _ _ _ _).readRequests]
      simp [Effect.isReadRequest]

/-- C4 at `P = 4096`, `G = 512`, `F = 10000`: the effective preload size is 4096 and the read
issued is for `[0, 4096)`. -/
theorem C4_effective_preload_size_witness :
    (ProcessPreload (sampleEnv managerReachable)
        (sizeStored managerReachable 4096 512 10000)).handle.PreloadSize = 4096 ∧
    (ProcessPreload (sampleEnv managerReachable)
        (sizeStored managerReachable 4096 512 10000)).trace.filter Effect.isReadRequest =
      (sizeStored managerReachable 4096 512 10000).trace.filter Effect.isReadRequest ++
        [.ReadRequest 7 0 4096 .AIOP_BelowNormal 100] ∧
    effectivePreloadSize 4096 512 10000 = 4096 ∧
    effectivePreloadSize 4096 512 3000 = 3000 :=
  C4_effective_preload_size (sampleEnv managerReachable)
    (sizeStored managerReachable 4096 512 10000) 7 100 4096 512 10000 4096
    rfl rfl rfl rfl rfl rfl (by decide) (by decide)
    (by rw [if_pos (by decide)]; exact ⟨⟨8, by norm_num⟩, le_rfl, fun _ _ h => h⟩)
    (by norm_num)

/-- C5 as stated fails: a handle whose `Open` reported failure because the size request could
not be created keeps its native file handle, and a later `ReadData` issues a platform read. -/
theorem C5_failed_initialization_still_reads :
    callsOf 5 sizeRequestFailed.trace = [false] ∧
    sizeRequestFailed.handle.FileHandle = some 7 ∧
    (ReadData (sampleEnv managerReachable) sizeRequestFailed 3 0 4 .AIOP_Normal (.user 6)).trace =
      sizeRequestFailed.trace ++ [.ReadRequest 7 0 4 .AIOP_Normal 3] := by
  decide

/-- C5 amended. (1) On a handle that holds no native file handle, as after a platform open
that returned null, `ReadData` with any offset and length issues no platform read and copies
nothing, and its only effect is the report of `false` to its closure: called in place, or
handed to the thread pool, which calls it with `false`. (2) A handle whose initialization
reported failure because the size request could not be created, because the preload buffer
could not be allocated, or because the preload read failed (completed cancelled or
unsuccessful, or refused by the platform) keeps its native file handle, and a later
`ReadData` of positive length on it issues a platform read for that offset, length, priority
and buffer. -/
theorem C5_no_file_handle_refuses_read (env env0 env1 : Env) (fc : Option FWwiseFileCache)
    (w : World) (OutBuffer : Ptr) (Offset BytesToRead : Int)
    (Priority : EAsyncIOPriorityAndFlags) (OnDone : Nat)
    (P G F : Int) (prio : EAsyncIOPriorityAndFlags) (mem : Ptr → List Nat) (cb : Nat)
    (bc : Bool) (rq Request : RequestId) (fh : FileHandleId) (p : Ptr)
    (bWasCancelled GetReadResults : Bool) (data : List Nat) :
    (w.handle.FileHandle = none →
      (ReadData env w OutBuffer Offset BytesToRead Priority (.user OnDone)).trace =
        w.trace ++ [if CallDoneMoves env.FileCache then .AsyncPool (some (.user OnDone)) false
          else .Call OnDone false] ∧
      (ReadData env w OutBuffer Offset BytesToRead Priority (.user OnDone)).pool =
        w.pool ++ (if CallDoneMoves env.FileCache then [(some (.user OnDone), false)] else []) ∧
      (ReadData env w OutBuffer Offset BytesToRead Priority (.user OnDone)).mem = w.mem ∧
      (ReadData env w OutBuffer Offset BytesToRead Priority (.user OnDone)).reads = w.reads ∧
      (w.pool = [] → w.fault = false →
        callsOf OnDone
            (drainPool
              (ReadData env w OutBuffer Offset BytesToRead Priority (.user OnDone))).trace =
          callsOf OnDone w.trace ++ [false])) ∧
    (env0.OpenAsyncRead = none →
      callsOf cb (drainPool (Open env0 (World.init P prio G mem) cb)).trace = [false] ∧
      (drainPool (Open env0 (World.init P prio G mem) cb)).handle.FileHandle = none) ∧
    (env0.OpenAsyncRead = some fh → env0.SizeRequest = none →
      callsOf cb (drainPool (Open env0 (World.init P prio G mem) cb)).trace = [false] ∧
      (drainPool (Open env0 (World.init P prio G mem) cb)).handle.FileHandle = some fh ∧
      (0 < BytesToRead →
        (ReadData env (drainPool (Open env0 (World.init P prio G mem) cb)) OutBuffer Offset
            BytesToRead Priority (.user OnDone)).trace.filter Effect.isReadRequest =
          (drainPool (Open env0 (World.init P prio G mem) cb)).trace.filter
              Effect.isReadRequest ++
            [.ReadRequest fh Offset BytesToRead Priority OutBuffer])) ∧
    (env0.OpenAsyncRead = some fh → env0.SizeRequest = some rq → P ≠ 0 →
      0 < effectivePreloadSize P G F → env1.NewArray = none →
      callsOf cb (drainPool (sizeResolved env0 env1 P G prio mem cb bc rq F)).trace = [false] ∧
      (drainPool (sizeResolved env0 env1 P G prio mem cb bc rq F)).handle.FileHandle =
        some fh ∧
      (0 < BytesToRead →
        (ReadData env (drainPool (sizeResolved env0 env1 P G prio mem cb bc rq F)) OutBuffer
            Offset BytesToRead Priority (.user OnDone)).trace.filter Effect.isReadRequest =
          (drainPool (sizeResolved env0 env1 P G prio mem cb bc rq F)).trace.filter
              Effect.isReadRequest ++
            [.ReadRequest fh Offset BytesToRead Priority OutBuffer])) ∧
    (env0.OpenAsyncRead = some fh → env0.SizeRequest = some rq → P ≠ 0 →
      0 < effectivePreloadSize P G F → env1.NewArray = some p →
      env1.ReadRequest = some Request → (!bWasCancelled && GetReadResults) = false →
      callsOf cb (readCompleted fc (sizeResolved env0 env1 P G prio mem cb bc rq F) Request
          bWasCancelled GetReadResults data).trace = [false] ∧
      (readCompleted fc (sizeResolved env0 env1 P G prio mem cb bc rq F) Request
          bWasCancelled GetReadResults data).handle.FileHandle = some fh ∧
      (0 < BytesToRead →
        (ReadData env (readCompleted fc (sizeResolved env0 env1 P G prio mem cb bc rq F) Request
            bWasCancelled GetReadResults data) OutBuffer Offset BytesToRead Priority
            (.user OnDone)).trace.filter Effect.isReadRequest =
          (readCompleted fc (sizeResolved env0 env1 P G prio mem cb bc rq F) Request
            bWasCancelled GetReadResults data).trace.filter Effect.isReadRequest ++
            [.ReadRequest fh Offset BytesToRead Priority OutBuffer])) ∧
    (env0.OpenAsyncRead = some fh → env0.SizeRequest = some rq → P ≠ 0 →
      0 < effectivePreloadSize P G F → env1.NewArray = some p → env1.ReadRequest = none →
      callsOf cb (drainPool (sizeResolved env0 env1 P G prio mem cb bc rq F)).trace = [false] ∧
      (drainPool (sizeResolved env0 env1 P G prio mem cb bc rq F)).handle.FileHandle =
        some fh ∧
      (0 < BytesToRead →
        (ReadData env (drainPool (sizeResolved env0 env1 P G prio mem cb bc rq F)) OutBuffer
            Offset BytesToRead Priority (.user OnDone)).trace.filter Effect.isReadRequest =
          (drainPool (sizeResolved env0 env1 P G prio mem cb bc rq F)).trace.filter
              Effect.isReadRequest ++
            [.ReadRequest fh Offset BytesToRead Priority OutBuffer])) := by
  refine ⟨?_, ?_, ?_, ?_, ?_, ?_⟩
  · intro hfh
    cases hm : CallDoneMoves env.FileCache <;>
      simp [ReadData, hfh, OnReadDataDone, CallDone, hm, invoke, emit, drainPool, runPoolTasks,
        runPoolTask, andThen, callsOf] <;>
      intro hp hf <;> simp [hp, hf, runPoolTasks, runPoolTask, andThen, invoke, emit, callsOf]
  · intro hopen
    exact open_null_world env0 P G prio mem cb hopen
  · intro hopen hsz
    obtain ⟨h1, h2, h3⟩ := size_request_refused_world env0 P G prio mem cb fh hopen hsz
    exact ⟨h1, h2, fun hlen =>
      (ReadData_without_preload env _ fh OutBuffer Offset BytesToRead Priority (.user OnDone) h2
        hlen h3).1⟩
  · intro hopen hsz hP hE hnew
    obtain ⟨h1, h2, h3⟩ := allocation_failed_world env0 env1 P G F prio mem cb bc rq fh hopen
      hsz hP hE hnew
    exact ⟨h1, h2, fun hlen =>
      (ReadData_without_preload env _ fh OutBuffer Offset BytesToRead Priority (.user OnDone) h2
        hlen h3).1⟩
  · intro hopen hsz hP hE hnew hrr hr
    obtain ⟨h1, h2, _, h4, _, _⟩ := read_completion_of_preload env0 env1 fc P G F prio mem cb bc
      rq fh p Request bWasCancelled GetReadResults data hopen hsz hP hE hnew hrr
    rw [hr] at h1 h2
    exact ⟨h1, h4, fun hlen =>
      (ReadData_without_preload env _ fh OutBuffer Offset BytesToRead Priority (.user OnDone) h4
        hlen (by simpa using h2)).1⟩
  · intro hopen hsz hP hE hnew hrr
    obtain ⟨h1, h2, _, h4, _⟩ := preload_request_not_created env0 env1 P G F prio mem cb bc rq
      fh p hopen hsz hP hE hnew hrr
    exact ⟨h1, h4, fun hlen =>
      (ReadData_without_preload env _ fh OutBuffer Offset BytesToRead Priority (.user OnDone) h4
        hlen h2).1⟩

/-- C5 amended, on a handle whose platform open returned null, where a later `ReadData` only
hands the report of `false` to the thread pool, and on a handle whose preload buffer could
not be allocated, where a later `ReadData` of 4 bytes goes to the platform. -/
theorem C5_no_file_handle_refuses_read_witness :
    openFailed.handle.FileHandle = none ∧
    (ReadData (sampleEnv managerReachable) openFailed 3 0 4 .AIOP_Normal (.user 6)).trace =
      openFailed.trace ++ [.AsyncPool (some (.user 6)) false] ∧
    (ReadData (sampleEnv managerReachable) openFailed 3 0 4 .AIOP_Normal (.user 6)).mem =
      openFailed.mem ∧
    callsOf 5 (drainPool (sizeResolved (sampleEnv managerReachable) allocationFails 4 1
      .AIOP_BelowNormal sampleMem 5 false 1 10)).trace = [false] ∧
    (ReadData (sampleEnv managerReachable)
        (drainPool (sizeResolved (sampleEnv managerReachable) allocationFails 4 1
          .AIOP_BelowNormal sampleMem 5 false 1 10)) 3 0 4 .AIOP_Normal
        (.user 6)).trace.filter Effect.isReadRequest = [.ReadRequest 7 0 4 .AIOP_Normal 3] :=
  ⟨rfl,
    ((C5_no_file_handle_refuses_read (sampleEnv managerReachable) (sampleEnv managerReachable)
      allocationFails managerReachable openFailed 3 0 4 .AIOP_Normal 6 4 1 10 .AIOP_BelowNormal
      sampleMem 5 false 1 2 7 100 true false []).1 rfl).1,
    ((C5_no_file_handle_refuses_read (sampleEnv managerReachable) (sampleEnv managerReachable)
      allocationFails managerReachable openFailed 3 0 4 .AIOP_Normal 6 4 1 10 .AIOP_BelowNormal
      sampleMem 5 false 1 2 7 100 true false []).1 rfl).2.2.1,
    ((C5_no_file_handle_refuses_read (sampleEnv managerReachable) (sampleEnv managerReachable)
      allocationFails managerReachable openFailed 3 0 4 .AIOP_Normal 6 4 1 10 .AIOP_BelowNormal
      sampleMem 5 false 1 2 7 100 true false []).2.2.2.1 rfl rfl (by decide) (by decide)
      rfl).1,
    ((C5_no_file_handle_refuses_read (sampleEnv managerReachable) (sampleEnv managerReachable)
      allocationFails managerReachable openFailed 3 0 4 .AIOP_Normal 6 4 1 10 .AIOP_BelowNormal
      sampleMem 5 false 1 2 7 100 true false []).2.2.2.1 rfl rfl (by decide) (by decide)
      rfl).2.2 (by decide)⟩

/-- C6 as stated fails: when the manager is unreachable at the completion of a request, the
completion path hands nothing to any queue and deletes nothing. The size request 1 of a
handle opened and sized without a manager is never released, and the read request 2 that
completes without a manager leaves only the size request's task behind. -/
theorem C6_request_left_unreleased_without_manager :
    (sized managerUnreachable 0 1 10).trace = [.OpenAsyncRead, .SizeRequest 7, .Call 5 true] ∧
    queueTasks (sized managerUnreachable 0 1 10).trace = [] ∧
    (readCompleted managerUnreachable (sized managerReachable 4 1 10) 2 false true
        [1, 2, 3, 4]).trace =
      [.OpenAsyncRead, .SizeRequest 7, .NewArray 4 (some 100),
        .ReadRequest 7 0 4 .AIOP_BelowNormal 100,
        .Async [.WaitCompletion (some 1), .DeleteRequest (some 1)], .Call 5 true] ∧
    queueTasks (readCompleted managerUnreachable (sized managerReachable 4 1 10) 2 false true
        [1, 2, 3, 4]).trace = [[.WaitCompletion (some 1), .DeleteRequest (some 1)]] := by
  decide

/-- C6 amended: at the completion of a size query, and of a read request in flight, with the
manager reachable and execution going on, exactly one task on that request goes to the
manager's execution queue, and it waits for the request's completion before deleting it (a
size query may also leave a task on the null request of a preload read the platform refused);
with the manager unreachable nothing goes to any queue. A completed read request is no
longer in flight. -/
theorem C6_request_release_through_queue (env : Env) (w : World) (bc : Bool)
    (SizeRequest Request : RequestId) (F : Int) (FileCache : Option FWwiseFileCache)
    (bWasCancelled GetReadResults : Bool) (data : List Nat)
    (hfault : w.fault = false) :
    (env.FileCache.isSome → (OnSizeRequestDone env w bc SizeRequest F).fault = false →
      ∃ l : List (List QueueOp),
        queueTasks (OnSizeRequestDone env w bc SizeRequest F).trace =
          queueTasks w.trace ++ l ++
            [[.WaitCompletion (some SizeRequest), .DeleteRequest (some SizeRequest)]] ∧
        ∀ t ∈ l, t = [.WaitCompletion none, .DeleteRequest none]) ∧
    (env.FileCache = none →
      queueTasks (OnSizeRequestDone env w bc SizeRequest F).trace = queueTasks w.trace) ∧
    ((w.reads.find? (fun r => r.Request == Request)).isSome → FileCache.isSome →
      (ReadRequestDone FileCache w Request bWasCancelled GetReadResults data).fault = false →
      queueTasks (ReadRequestDone FileCache w Request bWasCancelled GetReadResults data).trace =
        queueTasks w.trace ++
          [[.WaitCompletion (some Request), .DeleteRequest (some Request)]]) ∧
    (FileCache = none →
      queueTasks (ReadRequestDone FileCache w Request bWasCancelled GetReadResults data).trace =
        queueTasks w.trace) ∧
    (ReadRequestDone FileCache w Request bWasCancelled GetReadResults data).reads =
      w.reads.eraseP (fun r => r.Request == Request) := by
  obtain ⟨l, hl1, hl2, hl3⟩ := ProcessPreload_queueTasks env (setFileSize w F)
  have hl1' : queueTasks (ProcessPreload env (setFileSize w F)).trace = queueTasks w.trace ++ l :=
    hl1
  have hread : ∀ r : PendingRead, w.reads.find? (fun r => r.Request == Request) = some r →
      ReadRequestDone FileCache w Request bWasCancelled GetReadResults data =
        ReadCallbackFunction FileCache
          { w with
            reads := w.reads.eraseP (fun r => r.Request == Request),
            mem := Function.update w.mem r.OutBuffer
              (data ++ (w.mem r.OutBuffer).drop data.length) }
          r.OnDone bWasCancelled (some Request) GetReadResults := by
    intro r hr
    simp [ReadRequestDone, andThen, hfault, hr]
  have hnone : w.reads.find? (fun r => r.Request == Request) = none →
      ReadRequestDone FileCache w Request bWasCancelled GetReadResults data = w := by
    intro hr
    simp [ReadRequestDone, andThen, hfault, hr]
  refine ⟨?_, ?_, ?_, ?_, ?_⟩
  · intro hfc hnf
    obtain ⟨fc, hfc'⟩ := Option.isSome_iff_exists.mp hfc
    by_cases hf2 : (ProcessPreload env (setFileSize w F)).fault = true
    · simp [OnSizeRequestDone, andThen, hf2] at hnf
    · refine ⟨l, ?_, hl2⟩
      simp only [OnSizeRequestDone, andThen, hf2, hfc', Bool.false_eq_true, if_false]
      split
      · rw [CallDoneInitializationDone_queueTasks]
        simp only [emit, queueTasks_append, hl1']
        simp [queueTasks]
      · simp only [emit, queueTasks_append, hl1']
        simp [queueTasks]
  · intro hfc
    have hl : l = [] := hl3 hfc
    subst hl
    simp only [List.append_nil] at hl1'
    by_cases hf2 : (ProcessPreload env (setFileSize w F)).fault = true
    · simp [OnSizeRequestDone, andThen, hf2, hl1']
    · simp only [OnSizeRequestDone, andThen, hf2, hfc, Bool.false_eq_true, if_false]
      split
      · rw [CallDoneInitializationDone_queueTasks, hl1']
      · exact hl1'
  · intro hr hfc hnf
    obtain ⟨r, hr'⟩ := Option.isSome_iff_exists.mp hr
    rw [hread r hr'] at hnf ⊢
    rw [ReadCallbackFunction_queueTasks]
    simp [hnf, hfc, queueTasks]
  · intro hfc
    cases hr : w.reads.find? (fun r => r.Request == Request) with
    | none => rw [hnone hr]
    | some r =>
      rw [hread r hr, ReadCallbackFunction_queueTasks]
      simp [hfc, queueTasks]
  · cases hr : w.reads.find? (fun r => r.Request == Request) with
    | none =>
      rw [hnone hr]
      have hall : ∀ r ∈ w.reads, ¬ (r.Request == Request) = true := by
        simpa using hr
      exact (List.eraseP_of_forall_not hall).symm
    | some r =>
      rw [hread r hr]
      exact (ReadCallbackFunction_quiet _ _ _ _ _ _).reads

/-- C6 amended, on the sample handle whose preload read 2 completes with the manager
reachable: one task, waiting for request 2 and then deleting it, joins the queue. -/
theorem C6_request_release_through_queue_witness :
    queueTasks (ReadRequestDone managerReachable (sized managerReachable 4 1 10) 2 false true
        [1, 2, 3, 4]).trace =
      queueTasks (sized managerReachable 4 1 10).trace ++
        [[.WaitCompletion (some 2), .DeleteRequest (some 2)]] :=
  (C6_request_release_through_queue (sampleEnv managerReachable) (sized managerReachable 4 1 10)
    false 1 2 10 managerReachable false true [1, 2, 3, 4] (by decide)).2.2.1 (by decide) rfl
    (by decide)

/-- C7: `ReadAkData` hands buffer, offset, length and closure to `ReadData` unchanged, with
the priority `Normal` if `p` is the default, otherwise `Min` if `p <= min`, otherwise `Max`
if `p >= max`, otherwise `Low` if `p < 50`, otherwise `High`; with the constants 50, 0 and
100 this is `Normal` at 50, `Min` up to 0, `Max` from 100, `Low` strictly between 0 and 50
and `High` strictly between 50 and 100, for every integer `p` and so for every `int8`. -/
theorem C7_ReadAkData_priority_mapping (c : AkPriorityConstants) (env : Env) (w : World)
    (OutBuffer : Ptr) (Offset BytesToRead : Int) (p : Int) (OnDone : FWwiseFileOperationDone) :
    ReadAkData c env w OutBuffer Offset BytesToRead p OnDone =
        ReadData env w OutBuffer Offset BytesToRead
          (if p = c.AK_DEFAULT_PRIORITY then .AIOP_Normal
            else if p ≤ c.AK_MIN_PRIORITY then .AIOP_MIN
            else if p ≥ c.AK_MAX_PRIORITY then .AIOP_MAX
            else if p < 50 then .AIOP_Low
            else .AIOP_High) OnDone ∧
      (p = 50 → ReadAkData .sdk env w OutBuffer Offset BytesToRead p OnDone =
        ReadData env w OutBuffer Offset BytesToRead .AIOP_Normal OnDone) ∧
      (p ≤ 0 → ReadAkData .sdk env w OutBuffer Offset BytesToRead p OnDone =
        ReadData env w OutBuffer Offset BytesToRead .AIOP_MIN OnDone) ∧
      (100 ≤ p → ReadAkData .sdk env w OutBuffer Offset BytesToRead p OnDone =
        ReadData env w OutBuffer Offset BytesToRead .AIOP_MAX OnDone) ∧
      (0 < p → p < 50 → ReadAkData .sdk env w OutBuffer Offset BytesToRead p OnDone =
        ReadData env w OutBuffer Offset BytesToRead .AIOP_Low OnDone) ∧
      (50 < p → p < 100 → ReadAkData .sdk env w OutBuffer Offset BytesToRead p OnDone =
        ReadData env w OutBuffer Offset BytesToRead .AIOP_High OnDone) := by
  refine ⟨rfl, ?_, ?_, ?_, ?_, ?_⟩
  · intro h
    simp [ReadAkData, AkPriorityConstants.sdk, h]
  · intro h
    have h1 : p ≠ 50 := by omega
    simp [ReadAkData, AkPriorityConstants.sdk, h, h1]
  · intro h
    have h1 : p ≠ 50 := by omega
    have h2 : ¬ p ≤ 0 := by omega
    simp [ReadAkData, AkPriorityConstants.sdk, h, h1, h2]
  · intro h h'
    have h1 : p ≠ 50 := by omega
    have h2 : ¬ p ≤ 0 := by omega
    have h3 : ¬ 100 ≤ p := by omega
    simp [ReadAkData, AkPriorityConstants.sdk, h', h1, h2, h3]
  · intro h h'
    have h1 : p ≠ 50 := by omega
    have h2 : ¬ p ≤ 0 := by omega
    have h3 : ¬ 100 ≤ p := by omega
    have h4 : ¬ p < 50 := by omega
    simp [ReadAkData, AkPriorityConstants.sdk, h1, h2, h3, h4]

/-- C7 at the engine priority 49 with the constants 50, 0 and 100: the platform priority is
`Low`. -/
theorem C7_ReadAkData_priority_mapping_witness :
    ReadAkData .sdk (sampleEnv managerReachable) openFailed 3 0 4 49 (.user 6) =
      ReadData (sampleEnv managerReachable) openFailed 3 0 4 .AIOP_Low (.user 6) :=
  (C7_ReadAkData_priority_mapping .sdk (sampleEnv managerReachable) openFailed 3 0 4 49
    (.user 6)).2.2.2.2.1 (by decide) (by decide)

/-- C8: on a handle that holds a preload buffer `p` of `E` bytes, `ReadData` at offset 0 for
`E` bytes issues no platform read: its only effects are the copy from the preload buffer and
the report of `true` to its closure (in place, or through the thread pool). Afterwards the
first `E` bytes of the output buffer are the preload buffer's bytes, the rest of the output
buffer, its length and the preload buffer are unchanged; and when the handle has just completed its
preload read successfully with the platform having produced the `E` bytes `data`, these
first `E` bytes are `data`. -/
theorem C8_preload_fast_path (env : Env) (w : World) (fh : FileHandleId) (p : Ptr) (E : Int)
    (OutBuffer : Ptr) (Priority : EAsyncIOPriorityAndFlags) (OnDone : Nat)
    (hfh : w.handle.FileHandle = some fh) (hpd : w.handle.PreloadData = some p)
    (hE : w.handle.PreloadSize = E) (hlen : (w.mem p).length = E.toNat)
    (hout : E.toNat ≤ (w.mem OutBuffer).length) :
    (ReadData env w OutBuffer 0 E Priority (.user OnDone)).trace =
      w.trace ++ [.Memcpy OutBuffer p E,
        if CallDoneMoves env.FileCache then .AsyncPool (some (.user OnDone)) true
        else .Call OnDone true] ∧
    (ReadData env w OutBuffer 0 E Priority (.user OnDone)).reads = w.reads ∧
    ((ReadData env w OutBuffer 0 E Priority (.user OnDone)).mem OutBuffer).take E.toNat =
      w.mem p ∧
    ((ReadData env w OutBuffer 0 E Priority (.user OnDone)).mem OutBuffer).drop E.toNat =
      (w.mem OutBuffer).drop E.toNat ∧
    ((ReadData env w OutBuffer 0 E Priority (.user OnDone)).mem OutBuffer).length =
      (w.mem OutBuffer).length ∧
    (ReadData env w OutBuffer 0 E Priority (.user OnDone)).mem p = w.mem p ∧
    (ReadData env w OutBuffer 0 E Priority (.user OnDone)).handle.PreloadData = some p ∧
    (w.pool = [] → w.fault = false →
      callsOf OnDone (drainPool (ReadData env w OutBuffer 0 E Priority (.user OnDone))).trace =
        callsOf OnDone w.trace ++ [true]) ∧
    (∀ (env0 env1 : Env) (fc : Option FWwiseFileCache) (P G F : Int)
      (prio : EAsyncIOPriorityAndFlags) (mem : Ptr → List Nat) (cb : Nat) (bc : Bool)
      (rq Request : RequestId) (data : List Nat),
      env0.OpenAsyncRead = some fh → env0.SizeRequest = some rq → P ≠ 0 →
      0 < effectivePreloadSize P G F → env1.NewArray = some p →
      env1.ReadRequest = some Request → data.length = (effectivePreloadSize P G F).toNat →
      w = readCompleted fc (sizeResolved env0 env1 P G prio mem cb bc rq F) Request false true
        data →
      E = effectivePreloadSize P G F ∧
      ((ReadData env w OutBuffer 0 E Priority (.user OnDone)).mem OutBuffer).take E.toNat =
        data) := by
  have hcopy : (Memcpy w.mem OutBuffer p E OutBuffer).take E.toNat = w.mem p := by
    simp [Memcpy, List.take_append_eq_append_take, hlen]
  have hrest : (Memcpy w.mem OutBuffer p E OutBuffer).drop E.toNat =
      (w.mem OutBuffer).drop E.toNat := by
    simp [Memcpy, List.drop_append_eq_append_drop, hlen]
  have hsame : Memcpy w.mem OutBuffer p E p = w.mem p := by
    by_cases h : p = OutBuffer
    · subst h
      simp [Memcpy]
    · simp [Memcpy, Function.update_noteq h]
  have hmem : (ReadData env w OutBuffer 0 E Priority (.user OnDone)).mem =
      Memcpy w.mem OutBuffer p E := by
    cases hm : CallDoneMoves env.FileCache <;>
      simp [ReadData, hfh, hpd, hE, OnReadDataDone, CallDone, hm, invoke, emit]
  have hsize : (Memcpy w.mem OutBuffer p E OutBuffer).length = (w.mem OutBuffer).length := by
    simp [Memcpy, hlen]
    omega
  refine ⟨?_, ?_, ?_, ?_, ?_, ?_, ?_, ?_, ?_⟩
  · cases hm : CallDoneMoves env.FileCache <;>
      simp [ReadData, hfh, hpd, hE, OnReadDataDone, CallDone, hm, invoke, emit]
  · cases hm : CallDoneMoves env.FileCache <;>
      simp [ReadData, hfh, hpd, hE, OnReadDataDone, CallDone, hm, invoke, emit]
  · rw [hmem]; exact hcopy
  · rw [hmem]; exact hrest
  · rw [hmem]; exact hsize
  · rw [hmem]; exact hsame
  · cases hm : CallDoneMoves env.FileCache <;>
      simp [ReadData, hfh, hpd, hE, OnReadDataDone, CallDone, hm, invoke, emit]
  · intro hp hf
    cases hm : CallDoneMoves env.FileCache <;>
      simp [ReadData, hfh, hpd, hE, OnReadDataDone, CallDone, hm, invoke, emit, drainPool,
        runPoolTasks, runPoolTask, andThen, callsOf, hp, hf]
  · intro env0 env1 fc P G F prio mem cb bc rq Request data hopen hsz hP hEpos hnew hrr hdata hw
    obtain ⟨_, _, h3, _, _, h6⟩ := read_completion_of_preload env0 env1 fc P G F prio mem cb bc
      rq fh p Request false true data hopen hsz hP hEpos hnew hrr
    rw [← hw] at h3 h6
    have hEq : E = effectivePreloadSize P G F := by rw [← hE, h3]
    refine ⟨hEq, ?_⟩
    rw [hmem, hcopy, h6, List.drop_of_length_le (by simp [hdata])]
    simp

/-- C8 on the handle that preloaded the bytes 1, 2, 3, 4: a read of 4 bytes at offset 0 into
the buffer at address 3 copies them and asks the platform nothing. -/
theorem C8_preload_fast_path_witness :
    (ReadData (sampleEnv managerReachable) preloaded 3 0 4 .AIOP_Normal (.user 6)).trace =
      preloaded.trace ++ [.Memcpy 3 100 4, .AsyncPool (some (.user 6)) true] ∧
    ((ReadData (sampleEnv managerReachable) preloaded 3 0 4 .AIOP_Normal (.user 6)).mem 3).take 4 =
      [1, 2, 3, 4] :=
  ⟨(C8_preload_fast_path (sampleEnv managerReachable) preloaded 7 100 4 3 .AIOP_Normal 6 rfl rfl
      rfl (by decide) (by decide)).1,
    ((C8_preload_fast_path (sampleEnv managerReachable) preloaded 7 100 4 3 .AIOP_Normal 6 rfl rfl
      rfl (by decide) (by decide)).2.2.2.2.2.2.2.2
        (sampleEnv managerReachable) (sampleEnv managerReachable) managerReachable 4 1 10
        .AIOP_BelowNormal sampleMem 5 false 1 2 [1, 2, 3, 4] rfl rfl (by decide) (by decide) rfl rfl
        (by decide) rfl).2⟩

/-- C9: on a handle with a native file handle, a `ReadData` of positive length that does not
meet all of offset 0, preload buffer present, length equal to the preload size, copies
nothing and issues exactly one platform read request, for that offset, length, priority and
output buffer. -/
theorem C9_slow_path_issues_one_platform_read (env : Env) (w : World) (fh : FileHandleId)
    (OutBuffer : Ptr) (Offset BytesToRead : Int) (Priority : EAsyncIOPriorityAndFlags)
    (OnDone : FWwiseFileOperationDone)
    (hfh : w.handle.FileHandle = some fh) (hlen : BytesToRead > 0)
    (hslow : ¬ (Offset = 0 ∧ w.handle.PreloadData.isSome ∧ BytesToRead = w.handle.PreloadSize)) :
    (ReadData env w OutBuffer Offset BytesToRead Priority OnDone).trace.filter
        Effect.isReadRequest =
      w.trace.filter Effect.isReadRequest ++
        [.ReadRequest fh Offset BytesToRead Priority OutBuffer] ∧
    (ReadData env w OutBuffer Offset BytesToRead Priority OnDone).trace.filter Effect.isMemcpy =
      w.trace.filter Effect.isMemcpy ∧
    (ReadData env w OutBuffer Offset BytesToRead Priority OnDone).mem = w.mem := by
  simp only [ReadData, hfh]
  cases hpd : w.handle.PreloadData with
  | none =>
    exact ReadData_tail env w _ fh OutBuffer Offset BytesToRead Priority OnDone hlen rfl rfl
  | some pd =>
    simp only [hpd, Option.isSome_some, true_and] at hslow
    by_cases ho : Offset = 0
    · have hne : BytesToRead ≠ w.handle.PreloadSize := fun h => hslow ⟨ho, h⟩
      simp only [ho, if_true, hne, ne_eq, not_false_eq_true]
      subst ho
      exact ReadData_tail env w _ fh OutBuffer 0 BytesToRead Priority OnDone hlen rfl rfl
    · simp only [ho, if_false]
      exact ReadData_tail env w _ fh OutBuffer Offset BytesToRead Priority OnDone hlen rfl rfl

/-- C9 on a handle that holds a preload buffer of 4 bytes: a read of 2 bytes at offset 0
goes to the platform. -/
theorem C9_slow_path_issues_one_platform_read_witness :
    (ReadData (sampleEnv managerReachable) preloaded 3 0 2 .AIOP_Normal (.user 6)).trace.filter
        Effect.isReadRequest =
      preloaded.trace.filter Effect.isReadRequest ++ [.ReadRequest 7 0 2 .AIOP_Normal 3] ∧
    (ReadData (sampleEnv managerReachable) preloaded 3 0 2 .AIOP_Normal (.user 6)).trace.filter
        Effect.isMemcpy = preloaded.trace.filter Effect.isMemcpy ∧
    (ReadData (sampleEnv managerReachable) preloaded 3 0 2 .AIOP_Normal (.user 6)).mem =
      preloaded.mem :=
  C9_slow_path_issues_one_platform_read (sampleEnv managerReachable) preloaded 7 3 0 2
    .AIOP_Normal (.user 6) rfl (by decide) (by decide)

/-- C10: when `ProcessPreload` has issued its preload read (a preload is requested, the
clamped size is positive, the buffer is allocated) and the read completes with result `r`
(not cancelled and reported successful by the platform), the open-completion closure
receives exactly `r`, once, and the handle holds a preload buffer exactly when `r` is true;
the same with `r = false` when the platform refuses to create the request. After a failed
preload a `ReadData` of the effective preload size at offset 0 goes to the platform and
copies nothing. -/
theorem C10_preload_all_or_nothing (env0 env1 env2 : Env) (fc : Option FWwiseFileCache)
    (P G F : Int) (prio : EAsyncIOPriorityAndFlags) (mem : Ptr → List Nat) (cb : Nat) (bc : Bool)
    (rq : RequestId) (fh : FileHandleId) (p : Ptr) (bWasCancelled GetReadResults : Bool)
    (data : List Nat) (OutBuffer : Ptr) (Priority : EAsyncIOPriorityAndFlags)
    (OnDone : FWwiseFileOperationDone)
    (hopen : env0.OpenAsyncRead = some fh) (hsz : env0.SizeRequest = some rq)
    (hP : P ≠ 0) (hE : 0 < effectivePreloadSize P G F) (hnew : env1.NewArray = some p) :
    (∀ Request : RequestId, env1.ReadRequest = some Request →
      callsOf cb (readCompleted fc (sizeResolved env0 env1 P G prio mem cb bc rq F) Request
        bWasCancelled GetReadResults data).trace = [!bWasCancelled && GetReadResults] ∧
      (readCompleted fc (sizeResolved env0 env1 P G prio mem cb bc rq F) Request
        bWasCancelled GetReadResults data).handle.PreloadData.isSome =
          (!bWasCancelled && GetReadResults) ∧
      ((!bWasCancelled && GetReadResults) = false →
        (ReadData env2 (readCompleted fc (sizeResolved env0 env1 P G prio mem cb bc rq F) Request
            bWasCancelled GetReadResults data) OutBuffer 0 (effectivePreloadSize P G F) Priority
            OnDone).trace.filter Effect.isReadRequest =
          (readCompleted fc (sizeResolved env0 env1 P G prio mem cb bc rq F) Request
            bWasCancelled GetReadResults data).trace.filter Effect.isReadRequest ++
            [.ReadRequest fh 0 (effectivePreloadSize P G F) Priority OutBuffer] ∧
        (ReadData env2 (readCompleted fc (sizeResolved env0 env1 P G prio mem cb bc rq F) Request
            bWasCancelled GetReadResults data) OutBuffer 0 (effectivePreloadSize P G F) Priority
            OnDone).trace.filter Effect.isMemcpy =
          (readCompleted fc (sizeResolved env0 env1 P G prio mem cb bc rq F) Request
            bWasCancelled GetReadResults data).trace.filter Effect.isMemcpy)) ∧
    (env1.ReadRequest = none →
      callsOf cb (drainPool (sizeResolved env0 env1 P G prio mem cb bc rq F)).trace = [false] ∧
      (drainPool (sizeResolved env0 env1 P G prio mem cb bc rq F)).handle.PreloadData = none ∧
      (ReadData env2 (drainPool (sizeResolved env0 env1 P G prio mem cb bc rq F)) OutBuffer 0
          (effectivePreloadSize P G F) Priority OnDone).trace.filter Effect.isReadRequest =
        (drainPool (sizeResolved env0 env1 P G prio mem cb bc rq F)).trace.filter
            Effect.isReadRequest ++
          [.ReadRequest fh 0 (effectivePreloadSize P G F) Priority OutBuffer] ∧
      (ReadData env2 (drainPool (sizeResolved env0 env1 P G prio mem cb bc rq F)) OutBuffer 0
          (effectivePreloadSize P G F) Priority OnDone).trace.filter Effect.isMemcpy =
        (drainPool (sizeResolved env0 env1 P G prio mem cb bc rq F)).trace.filter
          Effect.isMemcpy) := by
  constructor
  · intro Request hrr
    obtain ⟨h1, h2, _, h4, _, _⟩ := read_completion_of_preload env0 env1 fc P G F prio mem cb bc rq
      fh p Request bWasCancelled GetReadResults data hopen hsz hP hE hnew hrr
    refine ⟨h1, ?_, ?_⟩
    · rw [h2]
      cases (!bWasCancelled && GetReadResults) <;> rfl
    · intro hr
      have hs := ReadData_without_preload env2 _ fh OutBuffer 0 (effectivePreloadSize P G F)
        Priority OnDone h4 hE (by rw [h2, hr]; simp)
      exact ⟨hs.1, hs.2.1⟩
  · intro hrr
    obtain ⟨h1, h2, _, h4, _⟩ := preload_request_not_created env0 env1 P G F prio mem cb bc rq
      fh p hopen hsz hP hE hnew hrr
    have hs := ReadData_without_preload env2 _ fh OutBuffer 0 (effectivePreloadSize P G F)
      Priority OnDone h4 hE h2
    exact ⟨h1, h2, hs.1, hs.2.1⟩

/-- C10 on the sample handle when its preload read is cancelled: the open-completion closure
receives `false` and no preload buffer is kept. -/
theorem C10_preload_all_or_nothing_witness :
    callsOf 5 (readCompleted managerReachable
      (sizeResolved (sampleEnv managerReachable) (sampleEnv managerReachable) 4 1 .AIOP_BelowNormal
        sampleMem 5 false 1 10) 2 true false []).trace = [false] ∧
    (readCompleted managerReachable
      (sizeResolved (sampleEnv managerReachable) (sampleEnv managerReachable) 4 1 .AIOP_BelowNormal
        sampleMem 5 false 1 10) 2 true false []).handle.PreloadData.isSome = false :=
  ⟨((C10_preload_all_or_nothing (sampleEnv managerReachable) (sampleEnv managerReachable)
      (sampleEnv managerReachable) managerReachable 4 1 10 .AIOP_BelowNormal sampleMem 5 false 1 7
      100 true false [] 3 .AIOP_Normal (.user 6) rfl rfl (by decide) (by decide) rfl).1 2 rfl).1,
    ((C10_preload_all_or_nothing (sampleEnv managerReachable) (sampleEnv managerReachable)
      (sampleEnv managerReachable) managerReachable 4 1 10 .AIOP_BelowNormal sampleMem 5 false 1 7
      100 true false [] 3 .AIOP_Normal (.user 6) rfl rfl (by decide) (by decide) rfl).1 2 rfl).2.1⟩

/-- C11: for a `ReadData` of positive length that goes to the platform (file handle present,
preload buffer not used) on a handle with an idle thread pool, the boolean its closure
receives is `!bWasCancelled && GetReadResults` when the platform completes the request it
created, and `false` when the platform could not create the request; in general the read
callback delivers `true` exactly when the completion is not cancelled, a request object
exists and the platform reports the read successful. -/
theorem C11_read_result_delivered (env : Env) (fc : Option FWwiseFileCache) (w : World)
    (fh : FileHandleId) (OutBuffer : Ptr) (Offset BytesToRead : Int)
    (Priority : EAsyncIOPriorityAndFlags) (OnDone : Nat) (Request : RequestId)
    (bWasCancelled GetReadResults : Bool) (data : List Nat)
    (hfault : w.fault = false) (hpool : w.pool = [])
    (hfh : w.handle.FileHandle = some fh) (hlen : BytesToRead > 0)
    (hslow : ¬ (Offset = 0 ∧ w.handle.PreloadData.isSome ∧ BytesToRead = w.handle.PreloadSize))
    (hfresh : w.reads.find? (fun r => r.Request == Request) = none) :
    (env.ReadRequest = some Request →
      callsOf OnDone
          (readCompleted fc (ReadData env w OutBuffer Offset BytesToRead Priority (.user OnDone))
            Request bWasCancelled GetReadResults data).trace =
        callsOf OnDone w.trace ++ [!bWasCancelled && GetReadResults]) ∧
    (env.ReadRequest = none →
      callsOf OnDone
          (drainPool (ReadData env w OutBuffer Offset BytesToRead Priority (.user OnDone))).trace =
        callsOf OnDone w.trace ++ [false]) ∧
    (∀ (w1 : World) (R : Option RequestId), w1.fault = false → w1.pool = [] →
      callsOf OnDone
          (drainPool (ReadCallbackFunction fc w1 (.user OnDone) bWasCancelled R
            GetReadResults)).trace =
        callsOf OnDone w1.trace ++
          [decide (bWasCancelled = false ∧ R.isSome = true ∧ GetReadResults = true)]) := by
  obtain ⟨w1, ht, hp, hf, hr, _, _, heq⟩ := ReadData_slow_eq env w fh OutBuffer Offset
    BytesToRead Priority (.user OnDone) hfh hlen hslow
  have hcalls : callsOf OnDone w1.trace = callsOf OnDone w.trace := by
    rw [ht, callsOf_append]
    simp [callsOf]
  refine ⟨?_, ?_, ?_⟩
  · intro hrr
    rw [heq, hrr]
    simp only [readCompleted, ReadRequestDone, andThen, hf, hfault, Bool.false_eq_true, if_false,
      hr, List.find?_append, hfresh, Option.none_or, List.find?_cons, beq_self_eq_true,
      List.eraseP_append_right]
    refine (ReadCallbackFunction_delivers fc _ OnDone bWasCancelled (some Request)
      GetReadResults ?_ ?_).trans ?_
    · rfl
    · exact hp.trans hpool
    · show callsOf OnDone w1.trace ++ _ = _
      rw [hcalls]
      simp
  · intro hrr
    rw [heq, hrr]
    simp only []
    rw [ReadCallbackFunction_delivers env.FileCache w1 OnDone true none false (hf.trans hfault)
      (hp.trans hpool), hcalls]
    simp
  · intro w2 R hf2 hp2
    rw [ReadCallbackFunction_delivers fc w2 OnDone bWasCancelled R GetReadResults hf2 hp2]
    cases bWasCancelled <;> cases R <;> cases GetReadResults <;> simp

/-- C11 on the sample handle: a read of 2 bytes at offset 6 whose request the platform
completes, not cancelled and successful, delivers `true`; cancelled, it would not. -/
theorem C11_read_result_delivered_witness :
    callsOf 6
        (readCompleted managerReachable
          (ReadData (sampleEnv managerReachable) preloaded 3 6 2 .AIOP_Normal (.user 6)) 2 false
          true [5, 5]).trace = [true] :=
  (C11_read_result_delivered (sampleEnv managerReachable) managerReachable preloaded 7 3 6 2
    .AIOP_Normal 6 2 false true [5, 5] (by decide) (by decide) (by decide) (by decide)
    (by decide) (by decide)).1 rfl

/-- C12: for every execution queue, at any point after `Close()` was called (any sequence of
submissions, close requests and worker iterations later), `Async` returns false and leaves
the queue as it is, a task that had not been accepted before the close is never among the
tasks run, `IsBeingClosed()` keeps reporting true, and once `IsClosed()` reports true it
does so after any further actions. -/
theorem C12_closed_queue_rejects_submissions (q : FWwiseExecutionQueue)
    (actions more : List QueueAction) (InFunction : Nat) :
    ((runActions q.Close actions).Async InFunction).2 = false ∧
    ((runActions q.Close actions).Async InFunction).1 = runActions q.Close actions ∧
    (InFunction ∉ q.OpQueue → InFunction ∉ q.executed →
      InFunction ∉
        (runActions ((runActions q.Close actions).Async InFunction).1 more).executed) ∧
    (runActions q.Close actions).IsBeingClosed = true ∧
    (runActions (runActions q.Close actions) more).IsBeingClosed = true ∧
    ((runActions q.Close actions).IsClosed = true →
      (runActions (runActions q.Close actions) more).IsClosed = true) := by
  obtain ⟨c1, c2, c3⟩ := Close_closing q
  obtain ⟨h1, h2, _⟩ := runActions_closing actions q.Close c1
  obtain ⟨g1, g2, g3⟩ := runActions_closing more (runActions q.Close actions) h1
  have hrej : ((runActions q.Close actions).Async InFunction).2 = false ∧
      ((runActions q.Close actions).Async InFunction).1 = runActions q.Close actions := by
    generalize runActions q.Close actions = q1 at h1
    obtain ⟨s, l, ex⟩ := q1
    cases s <;>
      simp_all [FWwiseExecutionQueue.Async, FWwiseExecutionQueue.IsBeingClosed]
  refine ⟨hrej.1, hrej.2, ?_, h1, g1, ?_⟩
  · intro hq hx
    rw [hrej.2]
    intro hmem
    have hin : InFunction ∈ (runActions (runActions q.Close actions) more).executed ++
        (runActions (runActions q.Close actions) more).OpQueue :=
      List.mem_append_left _ hmem
    rw [g2, h2, c2, c3] at hin
    rcases List.mem_append.mp hin with h | h
    · exact hx h
    · exact hq h
  · intro hc
    rw [g3 hc]
    exact hc

/-- C12 on the sample queue: closed while holding tasks 1 and 2, it runs them on two worker
iterations, and the task 9 submitted afterwards is rejected and never run. -/
theorem C12_closed_queue_rejects_submissions_witness :
    ((runActions sampleQueue.Close [.Work, .Work]).Async 9).2 = false ∧
    9 ∉ (runActions ((runActions sampleQueue.Close [.Work, .Work]).Async 9).1
      [.Work, .Async 9, .Work]).executed :=
  ⟨(C12_closed_queue_rejects_submissions sampleQueue [.Work, .Work]
      [.Work, .Async 9, .Work] 9).1,
    (C12_closed_queue_rejects_submissions sampleQueue [.Work, .Work]
      [.Work, .Async 9, .Work] 9).2.2.1 (by decide) (by decide)⟩

/-- C13: the in-flight counter against the history. In every world reached from a freshly
constructed handle by a sequence of calls, platform completions and thread-pool runs without
execution being stopped, the counter is the number (modulo `int32`) of read requests that the
history says are in flight: those created by the platform for a `ReadData` handed to it,
the preload read included, and not yet completed; these are exactly the requests the
platform holds. When that number fits `int32` the counter equals it and is not negative, and
it is 0 when no read is in flight. On every path of `ReadData`, in any world: without a
native file handle, and when served from the preload buffer, the counter goes up once and
down once within the call; handed to the platform with a request created it goes up once and
the request is in flight; with the request refused it goes up once and down once within the
call; and the completion of a request in flight, successful, failed or cancelled, takes it
down once. -/
theorem C13_in_flight_counter (P G : Int) (prio : EAsyncIOPriorityAndFlags)
    (mem : Ptr → List Nat) (events : List Event) (w : World)
    (hw : w = runEvents (World.init P prio G mem) events) (hrun : w.fault = false) :
    w.handle.ReadDataInProcess =
      wrapInt32 (inFlightAfter (World.init P prio G mem) [] events).length ∧
    w.reads.map (fun r => r.Request) = inFlightAfter (World.init P prio G mem) [] events ∧
    (((inFlightAfter (World.init P prio G mem) [] events).length : Int) < 2 ^ 31 →
      w.handle.ReadDataInProcess = (inFlightAfter (World.init P prio G mem) [] events).length ∧
      0 ≤ w.handle.ReadDataInProcess) ∧
    (inFlightAfter (World.init P prio G mem) [] events = [] →
      w.handle.ReadDataInProcess = 0) ∧
    (∀ (v : World) (env : Env) (OutBuffer : Ptr) (Offset BytesToRead : Int)
      (Priority : EAsyncIOPriorityAndFlags) (OnDone : FWwiseFileOperationDone),
      v.handle.FileHandle = none →
      (ReadData env v OutBuffer Offset BytesToRead Priority OnDone).handle.ReadDataInProcess =
          wrapInt32 (wrapInt32 (v.handle.ReadDataInProcess + 1) - 1) ∧
        (ReadData env v OutBuffer Offset BytesToRead Priority OnDone).reads = v.reads) ∧
    (∀ (v : World) (env : Env) (fh : FileHandleId) (p : Ptr) (OutBuffer : Ptr)
      (Priority : EAsyncIOPriorityAndFlags) (OnDone : FWwiseFileOperationDone),
      v.handle.FileHandle = some fh → v.handle.PreloadData = some p →
      (ReadData env v OutBuffer 0 v.handle.PreloadSize Priority OnDone).handle.ReadDataInProcess =
          wrapInt32 (wrapInt32 (v.handle.ReadDataInProcess + 1) - 1) ∧
        (ReadData env v OutBuffer 0 v.handle.PreloadSize Priority OnDone).reads = v.reads) ∧
    (∀ (v : World) (env : Env) (fh : FileHandleId) (OutBuffer : Ptr) (Offset BytesToRead : Int)
      (Priority : EAsyncIOPriorityAndFlags) (OnDone : FWwiseFileOperationDone)
      (Request : RequestId),
      v.handle.FileHandle = some fh → BytesToRead > 0 →
      ¬ (Offset = 0 ∧ v.handle.PreloadData.isSome ∧ BytesToRead = v.handle.PreloadSize) →
      env.ReadRequest = some Request →
      (ReadData env v OutBuffer Offset BytesToRead Priority OnDone).handle.ReadDataInProcess =
          wrapInt32 (v.handle.ReadDataInProcess + 1) ∧
        (ReadData env v OutBuffer Offset BytesToRead Priority OnDone).reads =
          v.reads ++ [⟨Request, OnDone, BytesToRead, OutBuffer⟩]) ∧
    (∀ (v : World) (env : Env) (fh : FileHandleId) (OutBuffer : Ptr) (Offset BytesToRead : Int)
      (Priority : EAsyncIOPriorityAndFlags) (OnDone : FWwiseFileOperationDone),
      v.handle.FileHandle = some fh → BytesToRead > 0 →
      ¬ (Offset = 0 ∧ v.handle.PreloadData.isSome ∧ BytesToRead = v.handle.PreloadSize) →
      env.ReadRequest = none →
      (ReadData env v OutBuffer Offset BytesToRead Priority OnDone).handle.ReadDataInProcess =
          wrapInt32 (wrapInt32 (v.handle.ReadDataInProcess + 1) - 1) ∧
        (ReadData env v OutBuffer Offset BytesToRead Priority OnDone).reads = v.reads) ∧
    (∀ (v : World) (fc : Option FWwiseFileCache) (Request : RequestId)
      (bWasCancelled GetReadResults : Bool) (data : List Nat),
      v.fault = false → (v.reads.find? (fun r => r.Request == Request)).isSome →
      (ReadRequestDone fc v Request bWasCancelled GetReadResults data).handle.ReadDataInProcess =
          wrapInt32 (v.handle.ReadDataInProcess - 1) ∧
        (ReadRequestDone fc v Request bWasCancelled GetReadResults data).reads.length + 1 =
          v.reads.length) := by
  have hinit : Tracks (World.init P prio G mem) [] := Or.inr ⟨rfl, rfl⟩
  have ht := runEvents_tracks events (World.init P prio G mem) [] hinit
  rw [← hw] at ht
  rcases ht with hf | ⟨hr, hc⟩
  · rw [hrun] at hf
    exact absurd hf (by simp)
  · refine ⟨hc, hr, ?_, ?_, ?_, ?_, ?_, ?_, ?_⟩
    · intro hlen
      have h0 : (0 : Int) ≤ (inFlightAfter (World.init P prio G mem) [] events).length :=
        Int.natCast_nonneg _
      rw [hc, wrapInt32_of_range (by omega) hlen]
      exact ⟨rfl, h0⟩
    · intro hnil
      rw [hc, hnil]
      rfl
    · intro v env OutBuffer Offset BytesToRead Priority OnDone hfh
      exact ReadData_counter_no_handle env v OutBuffer Offset BytesToRead Priority OnDone hfh
    · intro v env fh p OutBuffer Priority OnDone hfh hpd
      exact ReadData_counter_fast env v fh p OutBuffer Priority OnDone hfh hpd
    · intro v env fh OutBuffer Offset BytesToRead Priority OnDone Request hfh hlen hslow hrr
      exact (ReadData_counter_platform env v fh OutBuffer Offset BytesToRead Priority OnDone hfh
        hlen hslow).1 Request hrr
    · intro v env fh OutBuffer Offset BytesToRead Priority OnDone hfh hlen hslow hrr
      exact (ReadData_counter_platform env v fh OutBuffer Offset BytesToRead Priority OnDone hfh
        hlen hslow).2 hrr
    · intro v fc Request bWasCancelled GetReadResults data hf hfind
      exact ReadRequestDone_in_flight fc v Request bWasCancelled GetReadResults data hf hfind

/-- C13 on the sample life of a handle: the history leaves request 3 in flight (the preload
read, request 2, has completed), and the counter is 1. -/
theorem C13_in_flight_counter_witness :
    inFlightAfter (World.init 4 .AIOP_BelowNormal 1 sampleMem) [] sampleEvents = [3] ∧
    (runEvents (World.init 4 .AIOP_BelowNormal 1 sampleMem) sampleEvents).handle.ReadDataInProcess
      = 1 :=
  ⟨by decide,
    ((C13_in_flight_counter 4 1 .AIOP_BelowNormal sampleMem sampleEvents
      (runEvents (World.init 4 .AIOP_BelowNormal 1 sampleMem) sampleEvents) rfl
      (by decide)).2.2.1 (by decide)).1⟩

/-- C14: when the platform refuses to create the read request and the manager is reachable,
`ReadData` runs its callback with `(true, nullptr)` and the callback hands the execution
queue a task that calls `WaitCompletion` on, and deletes, the null request; the same happens
for the preload read issued during initialization. -/
theorem C14_task_on_null_request :
    (ReadData readRequestRefused preloaded 3 6 2 .AIOP_Normal (.user 6)).trace =
      preloaded.trace ++ [.ReadRequest 7 6 2 .AIOP_Normal 3, .AsyncPool (some (.user 6)) false,
        .Async [.WaitCompletion none, .DeleteRequest none]] ∧
    queueTasks (ReadData readRequestRefused preloaded 3 6 2 .AIOP_Normal (.user 6)).trace =
      queueTasks preloaded.trace ++ [[.WaitCompletion none, .DeleteRequest none]] ∧
    queueTasks (OnSizeRequestDone readRequestRefused (opened managerReachable 4 1) false 1
        10).trace =
      [[.WaitCompletion none, .DeleteRequest none],
        [.WaitCompletion (some 1), .DeleteRequest (some 1)]] := by
  decide

end Wwise
